import Mathlib

/-!
Multi-threaded web server: request parsing, byte-stream I/O, the connection
handler, the acceptor loop and the worker pool.

A shallow embedding of `server.c` and `server_threads.c`.

C strings are lists of characters (the bytes before the terminating NUL); a
`char *` out-parameter becomes a field of the returned record. The sizes of the
buffers that receive the strings are not part of the model.
-/

namespace WebServer

/-! ## C library string functions used by the server -/

/-- The C call `strstr (hay, needle)`: the tail of `hay` that starts at the first
occurrence of `needle`, or `none` (a NULL pointer) when there is none. -/
def strstr : List Char → List Char → Option (List Char)
  | [], needle => if needle.isPrefixOf [] then some [] else none
  | c :: hay, needle =>
    if needle.isPrefixOf (c :: hay) then some (c :: hay) else strstr hay needle

/-- The C call `index (s, c)`: the offset of the first `c` in `s`, or `none`
(a NULL pointer) when `c` does not occur. -/
def index : List Char → Char → Option Nat
  | [], _ => none
  | d :: s, c => if d = c then some 0 else (index s c).map (· + 1)

/-- The C call `strcat (dst, src)` on the string values. -/
def strcat (dst src : List Char) : List Char := dst ++ src

/-! ## `parse_uri` (server.c) -/

/-- What `parse_uri` leaves behind: its return value and the three strings it
was handed (`uri` is written to when a `?` is cut out of it). -/
structure ParseResult where
  ret : Int
  uri : List Char
  filename : List Char
  cgiargs : List Char
  deriving DecidableEq, Repr

/-- The function `parse_uri` of server.c. The result is `none` exactly where the
code reads `uri[strlen(uri)-1]` on an empty `uri`, a byte outside the string. -/
def parse_uri (uri : List Char) : Option ParseResult :=
  match strstr uri "cgi-bin".toList with
  | none =>
    -- static content
    let cgiargs : List Char := "".toList
    let filename : List Char := "..".toList
    let filename := strcat filename uri
    match uri.getLast? with
    | none => none
    | some last =>
      let filename :=
        if last = '/' then strcat filename "pages/index.html".toList else filename
      some { ret := 1, uri := uri, filename := filename, cgiargs := cgiargs }
  | some _ =>
    -- dynamic content
    match index uri '?' with
    | some p =>
      let cgiargs := uri.drop (p + 1)
      let uri := uri.take p
      let filename := strcat "".toList uri
      some { ret := 0, uri := uri, filename := filename, cgiargs := cgiargs }
    | none =>
      let cgiargs : List Char := "".toList
      let filename := strcat "".toList uri
      some { ret := 0, uri := uri, filename := filename, cgiargs := cgiargs }

/-! ## `get_filetype` (server.c) -/

/-- The function `get_filetype` of server.c; the result is the string copied
into `filetype`. -/
def get_filetype (filename : List Char) : List Char :=
  if (strstr filename ".html".toList).isSome then "text/html".toList
  else if (strstr filename ".gif".toList).isSome then "image/gif".toList
  else if (strstr filename ".jpg".toList).isSome then "image/jpeg".toList
  else "text/plain".toList

/-! ## `readBytes` (server.c) -/

/-- The outcome of one call `read (server, &temp[i], 1)`: a negative return, a
return of 0 (nothing is stored), or a return of 1 with the byte stored. -/
inductive ReadResult
  | error
  | eof
  | byte (c : Char)
  deriving DecidableEq, Repr

/-- The socket as the outcomes of the read calls still to come; once they are
used up the peer has closed and every further read returns 0. The result is the
outcome of this call and the socket afterwards. -/
def read : List ReadResult → ReadResult × List ReadResult
  | [] => (ReadResult.eof, [])
  | r :: rest => (r, rest)

/-- The terminator of a C string. -/
def NUL : Char := Char.ofNat 0

/-- What `readBytes` leaves behind: its return value, the string that `block`
holds when it was written (`none` when the function returns before the copy),
the socket, and the stack cells around `temp`. -/
structure ReadBytesResult where
  ret : Int
  block : Option (List Char)
  sock : List ReadResult
  stack : Int → Char

/-- The two statements `strcpy (block, temp); block[i+1] = '\0';` as the string
that `block` holds afterwards: the cells `temp[0..i]` up to the first NUL among
them. (`temp` itself is never terminated; whatever `strcpy` copies from the
cells after `temp[i]` lies behind the terminator written at `block[i+1]`.) -/
def copyOut (temp : Int → Char) (i : Nat) : List Char :=
  ((List.range (i + 1)).map (fun j : Nat => temp (j : Int))).takeWhile (fun c => c ≠ NUL)

/-- The loop `for ( i = 0; i < len; i++ )` of `readBytes` together with the
code after it. `n` is the number of iterations left, `len - i`. `temp` is an
automatic array that is never initialised: `temp j` is the byte at offset `j`
from its start, holding at first whatever the stack held. -/
def readBytes.loop : Nat → Nat → (Int → Char) → List ReadResult → ReadBytesResult
  | 0, i, temp, sock =>
    -- `i < len` fails: fall out of the loop
    { ret := 0, block := some (copyOut temp i), sock := sock, stack := temp }
  | n + 1, i, temp, sock =>
    match read sock with
    | (ReadResult.error, sock) =>
      -- rb < 0
      { ret := 1, block := none, sock := sock, stack := temp }
    | (rb, sock) =>
      if rb = ReadResult.eof ∧ i = 0 then
        { ret := -1, block := none, sock := sock, stack := temp }
      else
        let temp := match rb with
          | ReadResult.byte c => Function.update temp (i : Int) c
          | _ => temp
        if temp (i : Int) = '\n' then
          if temp ((i : Int) - 1) = '\r' ∧ i = 1 then
            { ret := -2, block := some (copyOut temp i), sock := sock, stack := temp }
          else
            -- break
            { ret := 0, block := some (copyOut temp i), sock := sock, stack := temp }
        else readBytes.loop n (i + 1) temp sock

/-- The function `readBytes` of server.c, reading from `sock` with the stack
around `temp` holding `stack` on entry. -/
def readBytes (sock : List ReadResult) (len : Nat) (stack : Int → Char) : ReadBytesResult :=
  readBytes.loop len 0 stack sock

/-- The stream of a socket that delivers the bytes of `s` one per read. -/
def bytes (s : List Char) : List ReadResult := s.map ReadResult.byte

/-! ## The status classification the specification gives for `readBytes` -/

/-- The specification's "a read call fails before a line is completed": among
the read calls made before the first newline is delivered, and within the first
`maxLen` calls, one returns an error. -/
def readFailsBeforeLine : Nat → List ReadResult → Bool
  | 0, _ => false
  | _ + 1, [] => false
  | _ + 1, ReadResult.error :: _ => true
  | n + 1, ReadResult.eof :: rest => readFailsBeforeLine n rest
  | n + 1, ReadResult.byte c :: rest => if c = '\n' then false else readFailsBeforeLine n rest

/-- The specification's "the first two bytes read are CR then LF". -/
def firstTwoBytesCRLF : List ReadResult → Bool
  | ReadResult.byte a :: ReadResult.byte b :: _ => a = '\r' ∧ b = '\n'
  | _ => false

/-- The reference classification of the specification: the error status 1 if a
read call fails before a line is completed; otherwise the "no data" status -1
if the very first read returns zero bytes; otherwise the "end of headers"
status -2 if the first two bytes read are CR then LF; otherwise the
ordinary-success status 0. -/
def readBytes_status_spec (sock : List ReadResult) (maxLen : Nat) : Int :=
  if readFailsBeforeLine maxLen sock then 1
  else if (read sock).1 = ReadResult.eof then -1
  else if firstTwoBytesCRLF sock then -2
  else 0

/-! ## `sendBytes` (server.c) -/

/-- One call `write (server, &buf[sentBytes], len-sentBytes)` as it happened:
the offset `sentBytes` of the first byte handed over, the count `len-sentBytes`
asked for, and the value `sb` the call returned. -/
structure WriteCall where
  off : Nat
  req : Nat
  sb : Int
  deriving DecidableEq, Repr

/-- What `sendBytes` leaves behind: its return value and the write calls it
made, in order. -/
structure SendBytesResult where
  ret : Int
  calls : List WriteCall
  deriving DecidableEq, Repr

/-- The loop `while ( sentBytes < len )` of `sendBytes`, entered with `k` write
calls already made; `w k` is the value the next call returns. The loop is
total: an iteration that does not return adds `sb > 0` to `sentBytes`. -/
def sendBytes.loop (w : Nat → Int) (len : Nat) (k sentBytes : Nat) : SendBytesResult :=
  if _h : sentBytes < len then
    let sb := w k
    let call : WriteCall := { off := sentBytes, req := len - sentBytes, sb := sb }
    if _h1 : sb < 0 then
      { ret := -1, calls := [call] }
    else if _h2 : sb = 0 then
      { ret := -1, calls := [call] }
    else
      let r := sendBytes.loop w len (k + 1) (sentBytes + sb.toNat)
      { ret := r.ret, calls := call :: r.calls }
  else
    { ret := 0, calls := [] }
termination_by len - sentBytes
decreasing_by
  have : 0 < sb.toNat := by omega
  omega

/-- The function `sendBytes` of server.c on a buffer of `len` bytes, where the
successive write calls return `w 0`, `w 1`, ... -/
def sendBytes (w : Nat → Int) (len : Nat) : SendBytesResult :=
  sendBytes.loop w len 0 0

/-! ## The worker pool (server_threads.c) -/

/-- Modelled from the spec: the slot type `MY_THREAD` is declared in a header
that is not among the sources. A worker slot has an availability flag (the
`int` field `available`, non-zero when the slot is free), a colour
(`color`, an entry of `colors`; `none` when the slot holds no entry of that
table: the null pointer of program start, or the result of reading outside the
table) and the handle of the thread that occupies it (`thread`). -/
structure MY_THREAD where
  available : Int
  color : Option String
  thread : Nat
  deriving DecidableEq, Repr

/-- The table `colors` of server_threads.c; its four entries are macros of the
missing header and stand here under their names. -/
def colors : List String := ["RED", "PURPLE", "ORANGE", "GREEN"]

/-- The constant `MAX_THREADS` of server.c. -/
def MAX_THREADS : Nat := 5

/-- The state the pool functions share: the slot table `backlog` of server.c
and the counter `threadCount` of server_threads.c (an `int`, kept here as an
integer without a bound: the acceptor loop never takes it above
`MAX_THREADS`). -/
structure Pool where
  backlog : List MY_THREAD
  threadCount : Int
  deriving DecidableEq, Repr

/-- The loop `for (int i = 0; i < max; i++)` of `setupThreads`; `n` is the
number of iterations left, `max - i`. -/
def setupThreads.loop : Nat → Nat → List MY_THREAD → List MY_THREAD
  | 0, _, backlog => backlog
  | n + 1, i, backlog =>
    setupThreads.loop n (i + 1)
      (backlog.modify (fun t => { t with available := 1, color := colors[i]? }) i)

/-- The function `setupThreads` of server_threads.c. -/
def setupThreads (p : Pool) (max : Nat) : Pool :=
  { p with backlog := setupThreads.loop max 0 p.backlog }

/-- The loop `while ( !backlog[usable_index].available ) { usable_index++; }` of
`findFreeThread`, on the slots from `usable_index` on. The loop has no bound:
the result is `none` where it runs past the last slot of the table. -/
def findFreeThread.scan : List MY_THREAD → Nat → Option Nat
  | [], _ => none
  | t :: rest, usable_index =>
    if t.available = 0 then findFreeThread.scan rest (usable_index + 1)
    else some usable_index

/-- The function `findFreeThread` of server_threads.c: the index returned and
the pool afterwards. It makes no use of `max`. -/
def findFreeThread (p : Pool) (_max : Nat) : Option (Nat × Pool) :=
  match findFreeThread.scan p.backlog 0 with
  | none => none
  | some usable_index =>
    some (usable_index,
      { backlog := p.backlog.modify (fun t => { t with available := 0 }) usable_index,
        threadCount := p.threadCount + 1 })

/-- The loop `for ( int i = 0; i < max; i++ )` of `waitForThreads`, which joins
the thread of every occupied slot and marks the slot available; `n` is the
number of iterations left. -/
def waitForThreads.loop : Nat → Nat → List MY_THREAD → List MY_THREAD
  | 0, _, backlog => backlog
  | n + 1, i, backlog =>
    waitForThreads.loop n (i + 1)
      (backlog.modify (fun t => if t.available = 0 then { t with available := 1 } else t) i)

/-- The function `waitForThreads` of server_threads.c. -/
def waitForThreads (p : Pool) (max : Nat) : Pool :=
  { backlog := waitForThreads.loop max 0 p.backlog, threadCount := 0 }

/-- The function `areThreadsMaxedOut` of server_threads.c: the value of the C
expression `threadCount < max`. -/
def areThreadsMaxedOut (p : Pool) (max : Int) : Int :=
  if p.threadCount < max then 1 else 0

/-- The number of occupied slots of the table. -/
def occupied (p : Pool) : Nat :=
  p.backlog.countP (fun t => t.available = 0)

/-! ## The acceptor loop of `server` (server.c), as far as the pool goes -/

/-- The pool when `server` starts: the table `backlog` and the counter
`threadCount` are globals, zero at program start. -/
def startPool : Pool :=
  { backlog := List.replicate MAX_THREADS { available := 0, color := none, thread := 0 },
    threadCount := 0 }

/-- The pool after the call `setupThreads ( backlog, MAX_THREADS )` that opens
`server`. -/
def initialPool : Pool := setupThreads startPool MAX_THREADS

/-- One iteration of the loop of `server` that goes through to the pool: with
`areThreadsMaxedOut( MAX_THREADS)` non-zero the connection is accepted,
`findFreeThread` picks its slot and `pthread_create` stores the handle `tid` of
the new thread in that slot; otherwise `waitForThreads` runs. The result is
`none` where `findFreeThread` runs past the table. -/
def serverStep (p : Pool) (tid : Nat) : Option Pool :=
  if areThreadsMaxedOut p MAX_THREADS ≠ 0 then
    match findFreeThread p MAX_THREADS with
    | none => none
    | some (i, q) =>
      some { q with backlog := q.backlog.modify (fun t => { t with thread := tid }) i }
  else
    some (waitForThreads p MAX_THREADS)

/-- The pool states the acceptor loop can reach from `setupThreads`. -/
inductive Reachable : Pool → Prop
  | init : Reachable initialPool
  | step {p q : Pool} (tid : Nat) : Reachable p → serverStep p tid = some q → Reachable q

/-! ## The array cells `readBytes` touches -/

/-- An array cell used by `readBytes`: `temp[i]` (handed to `read`, compared
with the newline, or looked at as `temp[i-1]`) or `block[i]` (written by
`block[i+1] = '\0'`). -/
inductive Access
  | temp (i : Int)
  | block (i : Int)
  deriving DecidableEq, Repr

/-- Whether a cell lies inside its array, `temp` and `block` both having `len`
cells (the callers pass a buffer of `len` bytes). -/
def Access.inBounds (len : Nat) : Access → Bool
  | Access.temp i => 0 ≤ i ∧ i < (len : Int)
  | Access.block i => 0 ≤ i ∧ i < (len : Int)

/-- The function `readBytes.loop` once more, this time keeping, next to its
result, the cells of `temp` and `block` it names, in the order of use. -/
def readBytes.traced :
    Nat → Nat → (Int → Char) → List ReadResult → ReadBytesResult × List Access
  | 0, i, temp, sock =>
    ({ ret := 0, block := some (copyOut temp i), sock := sock, stack := temp },
      [Access.block ((i : Int) + 1)])
  | n + 1, i, temp, sock =>
    match read sock with
    | (ReadResult.error, sock) =>
      ({ ret := 1, block := none, sock := sock, stack := temp }, [Access.temp (i : Int)])
    | (rb, sock) =>
      if rb = ReadResult.eof ∧ i = 0 then
        ({ ret := -1, block := none, sock := sock, stack := temp }, [Access.temp (i : Int)])
      else
        let temp := match rb with
          | ReadResult.byte c => Function.update temp (i : Int) c
          | _ => temp
        if temp (i : Int) = '\n' then
          if temp ((i : Int) - 1) = '\r' ∧ i = 1 then
            ({ ret := -2, block := some (copyOut temp i), sock := sock, stack := temp },
              [Access.temp (i : Int), Access.temp ((i : Int) - 1),
               Access.block ((i : Int) + 1)])
          else
            ({ ret := 0, block := some (copyOut temp i), sock := sock, stack := temp },
              [Access.temp (i : Int), Access.temp ((i : Int) - 1),
               Access.block ((i : Int) + 1)])
        else
          ((readBytes.traced n (i + 1) temp sock).1,
            Access.temp (i : Int) :: (readBytes.traced n (i + 1) temp sock).2)

/-- The cells `readBytes` names on a call with a buffer of `len` bytes. -/
def readBytes.accesses (sock : List ReadResult) (len : Nat) (stack : Int → Char) :
    List Access :=
  (readBytes.traced len 0 stack sock).2

/-! ## `read_request_hdrs` (server.c) -/

/-- The constant `MAXLINE` of server.c. -/
def MAXLINE : Nat := 1000

/-- The constant `MAX_NUM_OF_HEADER_LINES` of server.c. -/
def MAX_NUM_OF_HEADER_LINES : Nat := 10

/-- What `read_request_hdrs` leaves behind: its return value, the return values
of the `readBytes` calls it made (one per line read), and the socket. -/
structure HdrsResult where
  ret : Int
  statuses : List Int
  sock : List ReadResult
  deriving DecidableEq, Repr

/-- The loop `while ( (readBytes (...)) != -2 && count < MAX_NUM_OF_HEADER_LINES)`
of `read_request_hdrs` with the `return 0` after it. `n` is
`MAX_NUM_OF_HEADER_LINES - count`; `frames count` is what the stack holds under
`temp` when `readBytes` is entered for that call. The call of `readBytes` comes
first in the condition: it is made even when `count < MAX_NUM_OF_HEADER_LINES`
then fails. -/
def read_request_hdrs.loop :
    Nat → Nat → (Nat → Int → Char) → List ReadResult → HdrsResult
  | 0, count, frames, sock =>
    let rb := readBytes sock MAXLINE (frames count)
    { ret := 0, statuses := [rb.ret], sock := rb.sock }
  | n + 1, count, frames, sock =>
    let rb := readBytes sock MAXLINE (frames count)
    if rb.ret ≠ -2 then
      let r := read_request_hdrs.loop n (count + 1) frames rb.sock
      { r with statuses := rb.ret :: r.statuses }
    else
      { ret := 0, statuses := [rb.ret], sock := rb.sock }

/-- The function `read_request_hdrs` of server.c. -/
def read_request_hdrs (sock : List ReadResult) (frames : Nat → Int → Char) : HdrsResult :=
  read_request_hdrs.loop MAX_NUM_OF_HEADER_LINES 0 frames sock

/-! ## More of the C library: scanning, comparing, formatting -/

/-- The C call `isspace (c)` in the C locale. -/
def isspace (c : Char) : Bool :=
  c = ' ' ∨ c = '\t' ∨ c = '\n' ∨ c = Char.ofNat 11 ∨ c = Char.ofNat 12 ∨ c = '\r'

/-- One conversion `%s` of `sscanf`: white space is skipped, then the characters
up to the next white space are stored. The result is the string stored and the
input left, or `none` when the input ends before a character is found. -/
def scan_s (s : List Char) : Option (List Char × List Char) :=
  match s.dropWhile isspace with
  | [] => none
  | c :: t =>
    some ((c :: t).takeWhile (fun d => !isspace d), (c :: t).dropWhile (fun d => !isspace d))

/-- The call `sscanf ( buf, "%s %s %s", method, uri, version )`: the three
strings afterwards. A string whose conversion is not reached keeps what it held
before (`method`, `uri` and `version` are never initialised). -/
def sscanf_s_s_s (buf method uri version : List Char) :
    List Char × List Char × List Char :=
  match scan_s buf with
  | none => (method, uri, version)
  | some (m, r1) =>
    match scan_s r1 with
    | none => (m, uri, version)
    | some (u, r2) =>
      match scan_s r2 with
      | none => (m, u, version)
      | some (v, _) => (m, u, v)

/-- The C call `tolower (c)` in the C locale. -/
def tolower (c : Char) : Char :=
  if 'A' ≤ c ∧ c ≤ 'Z' then Char.ofNat (c.toNat + 32) else c

/-- The C call `strcasecmp (s1, s2)`: the difference of the first two bytes that
differ once both are put in lower case, the end of a string counting as 0. -/
def strcasecmp : List Char → List Char → Int
  | [], [] => 0
  | [], b :: _ => 0 - ((tolower b).toNat : Int)
  | a :: _, [] => ((tolower a).toNat : Int)
  | a :: s1, b :: s2 =>
    if tolower a = tolower b then strcasecmp s1 s2
    else ((tolower a).toNat : Int) - ((tolower b).toNat : Int)

/-- The C call `strcmp (s1, s2)`. -/
def strcmp : List Char → List Char → Int
  | [], [] => 0
  | [], b :: _ => 0 - (b.toNat : Int)
  | a :: _, [] => (a.toNat : Int)
  | a :: s1, b :: s2 =>
    if a = b then strcmp s1 s2 else (a.toNat : Int) - (b.toNat : Int)

/-- The conversion `%d` of `sprintf` on an `int`. -/
def fmt_d (v : Int) : List Char :=
  if v < 0 then '-' :: Nat.toDigits 10 v.natAbs else Nat.toDigits 10 v.toNat

/-- The conversion of an `off_t` to `int` (32 bits, two's complement), as it
happens when `st_size` is passed for the `int filesize` of `serve_static`. -/
def toInt (v : Int) : Int := (v + 2147483648) % 4294967296 - 2147483648

/-- What `stat` reports of a file, as far as the server looks at it. -/
structure Stat where
  st_mode : Nat
  st_size : Int
  deriving DecidableEq, Repr

/-- The macro `S_ISREG` of `sys/stat.h`. -/
def S_ISREG (m : Nat) : Bool := m &&& 0o170000 = 0o100000

/-- The constant `S_IRUSR` of `sys/stat.h`. -/
def S_IRUSR : Nat := 0o400

/-- The constant `S_IXUSR` of `sys/stat.h`. -/
def S_IXUSR : Nat := 0o100

/-! ## The content servers (server.c) -/

/-- The calls by which a handler acts on its connection, as they are made. -/
inductive Call
  | read_request_hdrs (lines : Nat)
  | serve_static (filename : List Char) (filesize : Int)
  | serve_dynamic (filename cgiargs : List Char)
  | sendBytes (len : Int) (buf : List Char)
  | fork
  | wait
  | close
  deriving DecidableEq, Repr

/-- Whether a call is one of `sendBytes`, the only function that writes to the
client socket. -/
def Call.isSendBytes : Call → Bool
  | Call.sendBytes _ _ => true
  | _ => false

/-- Whether a call is one of `read_request_hdrs`. -/
def Call.isReadHdrs : Call → Bool
  | Call.read_request_hdrs _ => true
  | _ => false

/-- Whether a call is one of `serve_static`. -/
def Call.isServeStatic : Call → Bool
  | Call.serve_static _ _ => true
  | _ => false

/-- Whether a call is one of `serve_dynamic`. -/
def Call.isServeDynamic : Call → Bool
  | Call.serve_dynamic _ _ => true
  | _ => false

/-- The function `serve_static` of server.c: the calls it makes.

The header is built by `sprintf (buf, "%s...", buf, ...)`, which names `buf`
both as the destination and as the argument of `%s`; the C standard leaves the
result of such a call undefined. `overlap old` is what the conversion `%s`
delivers in that call when `buf` held `old`: `old` itself with a library that
formats in place before it touches the destination, nothing with a library that
empties the destination first (a fortified glibc does).

Neither `open` nor `mmap` is checked. `srcp` is what the mapping holds, `none`
when one of the two has failed; `sendBytes` is then handed a pointer from which
nothing can be written. -/
def serve_static (overlap : List Char → List Char) (filename : List Char) (filesize : Int)
    (srcp : Option (List Char)) : List Call :=
  let filetype := get_filetype filename
  let buf := "HTTP/1.0 200 OK\r\n".toList
  let buf := overlap buf ++ "Server: Gabe Harms Web Server\r\n".toList
  let buf := overlap buf ++ "Content-length: ".toList ++ fmt_d filesize ++ "\r\n".toList
  let buf := overlap buf ++ "Content-type: ".toList ++ filetype ++ "\r\n\r\n".toList
  [Call.sendBytes buf.length buf,
   Call.sendBytes filesize
     (match srcp with
      | some file => file.take filesize.toNat
      | none => [])]

/-- The function `serve_dynamic` of server.c: the calls it makes in the server
process. (The child that `fork` starts sets `QUERY_STRING` and redirects its
standard output; the `execve` call is commented out.) -/
def serve_dynamic (_filename _cgiargs : List Char) : List Call :=
  let buf := "HTTP/1.0 200 OK\r\n".toList
  let c1 := Call.sendBytes buf.length buf
  let buf := "Server: Gabe Harms Web Server".toList
  let c2 := Call.sendBytes buf.length buf
  [c1, c2, Call.fork, Call.wait]

/-- The bytes that the `sendBytes` calls among `calls` are asked to write, in
order. -/
def bytesSent : List Call → List Char
  | [] => []
  | Call.sendBytes len buf :: rest => buf.take len.toNat ++ bytesSent rest
  | _ :: rest => bytesSent rest

/-! ## `selectData` and `processClient` (server.c) -/

/-- The function `selectData` of server.c, from what `select` returns and
whether the descriptor is set afterwards. -/
def selectData (selectRet : Int) (isSet : Bool) : Int :=
  if selectRet = -1 then 1
  else if isSet = false then 1
  else 0

/-- All that a run of `processClient` depends on: the outcome of the readiness
poll, the socket, what the stack holds under `temp` at each `readBytes` call,
what the locals `buf`, `method`, `uri` and `version` hold at first (they are
never initialised), what `stat` reports for a file name, what the mapping of the
file of that name holds (`none` when `open` or `mmap` fails), and what `sprintf`
delivers for a `%s` argument that is also its destination (see
`serve_static`). -/
structure ClientEnv where
  selectRet : Int
  isSet : Bool
  sock : List ReadResult
  stack : Int → Char
  frames : Nat → Int → Char
  buf : List Char
  method : List Char
  uri : List Char
  version : List Char
  stat : List Char → Option Stat
  file : List Char → Option (List Char)
  overlap : List Char → List Char

/-- What `processClient` leaves behind: the value of `ret` at `pthread_exit` and
the calls made on the connection. -/
structure ClientResult where
  ret : Int
  calls : List Call
  deriving DecidableEq, Repr

/-- The request line as `processClient` has it in `buf` after its `readBytes`
call. -/
def requestLine (e : ClientEnv) : List Char :=
  ((readBytes e.sock MAXLINE e.stack).block).getD e.buf

/-- The strings `method`, `uri` and `version` after the `sscanf` call of
`processClient`. -/
def requestFields (e : ClientEnv) : List Char × List Char × List Char :=
  sscanf_s_s_s (requestLine e) e.method e.uri e.version

/-- The function `processClient` of server.c. Each `pthread_exit` ends the run.
The result is `none` where `parse_uri` reads outside `uri`. -/
def processClient (e : ClientEnv) : Option ClientResult :=
  if selectData e.selectRet e.isSet ≠ 0 then
    some { ret := 1, calls := [] }
  else if (readBytes e.sock MAXLINE e.stack).ret = -1 then
    some { ret := 1, calls := [] }
  else
    match requestFields e with
    | (method, uri, version) =>
      if strcasecmp method "GET".toList ≠ 0 then
        some { ret := 1, calls := [] }
      else
        let hdrs : List Call :=
          if strcmp version "HTTP/1.1".toList = 0 then
            [Call.read_request_hdrs
              (read_request_hdrs (readBytes e.sock MAXLINE e.stack).sock
                e.frames).statuses.length]
          else []
        match parse_uri uri with
        | none => none
        | some r =>
          match e.stat r.filename with
          | none => some { ret := 1, calls := hdrs }
          | some sbuf =>
            if r.ret ≠ 0 then
              if !(S_ISREG sbuf.st_mode) || (S_IRUSR &&& sbuf.st_mode) = 0 then
                some { ret := 1, calls := hdrs }
              else
                some { ret := 0,
                       calls := hdrs ++
                         Call.serve_static r.filename (toInt sbuf.st_size) ::
                           serve_static e.overlap r.filename (toInt sbuf.st_size)
                             (e.file r.filename) ++
                         [Call.close] }
            else
              if !(S_ISREG sbuf.st_mode) || (S_IXUSR &&& sbuf.st_mode) = 0 then
                some { ret := 1, calls := hdrs }
              else
                some { ret := 0,
                       calls := hdrs ++
                         Call.serve_dynamic r.filename r.cgiargs ::
                           serve_dynamic r.filename r.cgiargs ++
                         [Call.close] }

/-- A run of `processClient` whose readiness poll reports the socket readable,
on a stack and with locals that hold zero bytes throughout, where every file is
opened and mapped with the content `file` gives it, and with a C library whose
`sprintf` formats in place (`overlap` is the identity). -/
def readyClient (sock : List ReadResult) (stat : List Char → Option Stat)
    (file : List Char → List Char) : ClientEnv :=
  ClientEnv.mk 1 true sock (fun _ => NUL) (fun _ _ => NUL) [] [] [] [] stat
    (fun name => some (file name)) id

/-! ## The function `server` (server.c) -/

/-- What one pass through the loop of `server` meets: the value of
`serverShutdown` when the loop condition is tested, the outcome of the readiness
poll on the listening socket, what `accept` returns (the descriptor of the
client, or -1), and the handle `pthread_create` gives the new thread. -/
structure Pass where
  serverShutdown : Bool
  selectRet : Int
  isSet : Bool
  client : Int
  tid : Nat
  deriving DecidableEq, Repr

/-- Where `server` stands after the passes given: its return value (`none` while
it is still in the loop), whether `close ( server )` has been called on the
listening socket, the pool, and the clients handed to a `processClient` thread,
in order. -/
structure ServerResult where
  ret : Option Int
  closed : Bool
  pool : Pool
  handlers : List Int
  deriving DecidableEq, Repr

/-- The loop `while ( !serverShutdown )` of `server` with the code after it, run
over the passes given. The result is `none` where `findFreeThread` runs past the
table. -/
def server.loop : List Pass → Pool → List Int → Option ServerResult
  | [], p, handlers => some { ret := none, closed := false, pool := p, handlers := handlers }
  | pass :: rest, p, handlers =>
    if pass.serverShutdown then
      some { ret := some 0, closed := true, pool := p, handlers := handlers }
    else if selectData pass.selectRet pass.isSet ≠ 0 then
      some { ret := some 1, closed := false, pool := p, handlers := handlers }
    else if areThreadsMaxedOut p MAX_THREADS ≠ 0 then
      if pass.client = -1 then
        some { ret := some 1, closed := false, pool := p, handlers := handlers }
      else
        match findFreeThread p MAX_THREADS with
        | none => none
        | some (i, q) =>
          server.loop rest
            { q with backlog := q.backlog.modify (fun t => { t with thread := pass.tid }) i }
            (handlers ++ [pass.client])
    else
      server.loop rest (waitForThreads p MAX_THREADS) handlers

/-- The function `server` of server.c, from what `setupServer` returns and the
passes through its loop. -/
def server (setupServerRet : Int) (passes : List Pass) : Option ServerResult :=
  let p := setupThreads startPool MAX_THREADS
  if setupServerRet ≠ 0 then
    some { ret := some 1, closed := false, pool := p, handlers := [] }
  else
    server.loop passes p []

/-! ## Facts about the string functions -/

theorem strstr_eq_none_iff (hay needle : List Char) :
    strstr hay needle = none ↔ ¬ needle <:+: hay := by
  induction hay with
  | nil =>
    cases needle with
    | nil => simp [strstr]
    | cons a t => simp [strstr, List.isPrefixOf]
  | cons c hay ih =>
    unfold strstr
    by_cases hp : needle.isPrefixOf (c :: hay) = true
    · have hp2 : needle <+: c :: hay := List.isPrefixOf_iff_prefix.mp hp
      simp [hp, List.infix_cons_iff, hp2]
    · have hp2 : ¬ needle <+: c :: hay := fun h => hp (List.isPrefixOf_iff_prefix.mpr h)
      simp [hp, List.infix_cons_iff, hp2, ih]

theorem strstr_isSome_iff (hay needle : List Char) :
    (strstr hay needle).isSome = true ↔ needle <:+: hay := by
  rw [← not_iff_not, ← strstr_eq_none_iff]
  cases strstr hay needle <;> simp

theorem index_eq_none_iff (s : List Char) (c : Char) : index s c = none ↔ c ∉ s := by
  induction s with
  | nil => simp [index]
  | cons d s ih =>
    unfold index
    by_cases h : d = c
    · simp [h]
    · have h2 : ¬ c = d := fun e => h e.symm
      simp [h, h2, ih]

theorem index_eq_some (s : List Char) (c : Char) (p : Nat) (h : index s c = some p) :
    s.take p ++ c :: s.drop (p + 1) = s ∧ c ∉ s.take p := by
  induction s generalizing p with
  | nil => simp [index] at h
  | cons d s ih =>
    unfold index at h
    by_cases hd : d = c
    · simp [hd] at h
      subst h
      simp [hd]
    · simp only [hd, if_false, Option.map_eq_some'] at h
      obtain ⟨q, hq, rfl⟩ := h
      have := ih q hq
      have h2 : ¬ c = d := fun e => hd e.symm
      simp [this.1, this.2, h2]

/-! ## Request-target resolution -/

/-- C1: for every non-empty target that does not contain "cgi-bin" and does not
end in '/', `parse_uri` returns 1 (static), leaves the argument string empty,
leaves the target untouched and sets the filename to ".." followed by the
target. -/
theorem parse_uri_static_plain (uri : List Char) (hne : uri ≠ [])
    (hcgi : ¬ "cgi-bin".toList <:+: uri) (hslash : uri.getLast? ≠ some '/') :
    parse_uri uri =
      some { ret := 1, uri := uri, filename := "..".toList ++ uri, cgiargs := [] } := by
  have hs : strstr uri "cgi-bin".toList = none := (strstr_eq_none_iff _ _).mpr hcgi
  unfold parse_uri
  rw [hs]
  cases hl : uri.getLast? with
  | none => exact absurd (List.getLast?_eq_none_iff.mp hl) hne
  | some last =>
    have hlast : last ≠ '/' := fun e => hslash (by rw [hl, e])
    simp [hlast, strcat]

/-- C1 at the target "/index.html": static, no arguments, filename
"../index.html". -/
theorem parse_uri_static_plain_witness :
    parse_uri "/index.html".toList =
      some { ret := 1, uri := "/index.html".toList, filename := "../index.html".toList,
             cgiargs := [] } :=
  parse_uri_static_plain "/index.html".toList (by decide) (by decide) (by decide)

/-- C2, as stated, fails: the target "/a/" contains no "cgi-bin" and ends in
'/', yet it resolves to "../a/pages/index.html", not to the file
"../pages/index.html" that "/" resolves to; so not every such target resolves
to that one file. -/
theorem parse_uri_slash_not_fixed :
    (¬ "cgi-bin".toList <:+: "/a/".toList ∧ "/a/".toList.getLast? = some '/' ∧
      (parse_uri "/a/".toList).map ParseResult.filename =
        some "../a/pages/index.html".toList ∧
      (parse_uri "/".toList).map ParseResult.filename =
        some "../pages/index.html".toList) ∧
    ¬ ∀ uri : List Char, ¬ "cgi-bin".toList <:+: uri → uri.getLast? = some '/' →
        (parse_uri uri).map ParseResult.filename = some "../pages/index.html".toList := by
  refine ⟨by decide, ?_⟩
  intro h
  have h1 := h "/a/".toList (by decide) (by decide)
  revert h1
  decide

/-- C2, amended: for every target that does not contain "cgi-bin" and ends in
'/', `parse_uri` returns 1 (static) with an empty argument string and the
filename ".." followed by the target followed by "pages/index.html"; that
filename is "../pages/index.html" exactly when the target is "/". -/
theorem parse_uri_static_slash (uri : List Char)
    (hcgi : ¬ "cgi-bin".toList <:+: uri) (hslash : uri.getLast? = some '/') :
    parse_uri uri =
        some { ret := 1, uri := uri,
               filename := "..".toList ++ uri ++ "pages/index.html".toList,
               cgiargs := [] } ∧
      ("..".toList ++ uri ++ "pages/index.html".toList = "../pages/index.html".toList ↔
        uri = "/".toList) := by
  have hs : strstr uri "cgi-bin".toList = none := (strstr_eq_none_iff _ _).mpr hcgi
  refine ⟨?_, ?_⟩
  · unfold parse_uri
    rw [hs, hslash]
    simp [strcat]
  · constructor
    · intro h
      have h2 : "..".toList ++ (uri ++ "pages/index.html".toList) =
          "..".toList ++ ("/".toList ++ "pages/index.html".toList) := by
        rw [← List.append_assoc, h]; rfl
      exact List.append_cancel_right (List.append_cancel_left h2)
    · rintro rfl
      rfl

/-- C2 (amended) at the targets "/" and "/a/". -/
theorem parse_uri_static_slash_witness :
    (parse_uri "/".toList).map ParseResult.filename = some "../pages/index.html".toList ∧
    (parse_uri "/a/".toList).map ParseResult.filename =
      some "../a/pages/index.html".toList := by
  refine ⟨?_, ?_⟩
  · rw [(parse_uri_static_slash "/".toList (by decide) (by decide)).1]; rfl
  · rw [(parse_uri_static_slash "/a/".toList (by decide) (by decide)).1]; rfl

/-- C3: for every target containing "cgi-bin", `parse_uri` returns 0 (dynamic);
when the target contains '?', the filename holds no '?' and filename, "?" and
the argument string concatenate to the target; when it contains none, the
filename is the target and the argument string is empty. -/
theorem parse_uri_dynamic (uri : List Char) (hcgi : "cgi-bin".toList <:+: uri) :
    ∃ r, parse_uri uri = some r ∧ r.ret = 0 ∧
      ('?' ∈ uri → r.filename ++ '?' :: r.cgiargs = uri ∧ '?' ∉ r.filename) ∧
      ('?' ∉ uri → r.filename = uri ∧ r.cgiargs = []) := by
  have hs : (strstr uri "cgi-bin".toList).isSome = true := (strstr_isSome_iff _ _).mpr hcgi
  obtain ⟨t, ht⟩ := Option.isSome_iff_exists.mp hs
  unfold parse_uri
  rw [ht]
  cases hi : index uri '?' with
  | none =>
    have hq : '?' ∉ uri := (index_eq_none_iff _ _).mp hi
    exact ⟨_, rfl, rfl, fun h => absurd h hq, fun _ => ⟨by simp [strcat], rfl⟩⟩
  | some p =>
    have hp := index_eq_some uri '?' p hi
    have hq : '?' ∈ uri := by
      rw [← hp.1]
      simp
    exact ⟨_, rfl, rfl, fun _ => ⟨by simpa [strcat] using hp.1, by simpa [strcat] using hp.2⟩,
      fun h => absurd hq h⟩

/-- C3 at the target "/cgi-bin/foo?x=1": dynamic, filename "/cgi-bin/foo",
arguments "x=1". -/
theorem parse_uri_dynamic_witness :
    (∃ r, parse_uri "/cgi-bin/foo?x=1".toList = some r ∧ r.ret = 0 ∧
      ('?' ∈ "/cgi-bin/foo?x=1".toList →
        r.filename ++ '?' :: r.cgiargs = "/cgi-bin/foo?x=1".toList ∧ '?' ∉ r.filename) ∧
      ('?' ∉ "/cgi-bin/foo?x=1".toList →
        r.filename = "/cgi-bin/foo?x=1".toList ∧ r.cgiargs = [])) ∧
    parse_uri "/cgi-bin/foo?x=1".toList =
      some { ret := 0, uri := "/cgi-bin/foo".toList, filename := "/cgi-bin/foo".toList,
             cgiargs := "x=1".toList } :=
  ⟨parse_uri_dynamic "/cgi-bin/foo?x=1".toList (by decide), by decide⟩

/-! ## Content type -/

/-- C4, as stated, fails: "a.html.gif" ends in ".gif" yet gets "text/html", and
"a.gif.txt" ends in none of the three suffixes yet gets "image/gif"; so the
type is not a function of the suffix. -/
theorem get_filetype_not_by_suffix :
    (".gif".toList <:+ "a.html.gif".toList ∧
      get_filetype "a.html.gif".toList = "text/html".toList) ∧
    (¬ ".html".toList <:+ "a.gif.txt".toList ∧ ¬ ".gif".toList <:+ "a.gif.txt".toList ∧
      ¬ ".jpg".toList <:+ "a.gif.txt".toList ∧
      get_filetype "a.gif.txt".toList = "image/gif".toList) ∧
    ¬ ∀ f : List Char,
        (".html".toList <:+ f → get_filetype f = "text/html".toList) ∧
        (".gif".toList <:+ f → get_filetype f = "image/gif".toList) ∧
        (".jpg".toList <:+ f → get_filetype f = "image/jpeg".toList) ∧
        (¬ ".html".toList <:+ f → ¬ ".gif".toList <:+ f → ¬ ".jpg".toList <:+ f →
          get_filetype f = "text/plain".toList) := by
  refine ⟨by decide, by decide, ?_⟩
  intro h
  have h1 := (h "a.html.gif".toList).2.1 (by decide)
  revert h1
  decide

/-- C4, amended: `get_filetype` decides by containment, tested in this order: a
filename containing ".html" anywhere gives "text/html", otherwise one containing
".gif" gives "image/gif", otherwise one containing ".jpg" gives "image/jpeg",
and a filename containing none of the three gives "text/plain". Hence a
filename ending in ".html" gives "text/html", one ending in ".gif" gives
"image/gif" unless it contains ".html", and one ending in ".jpg" gives
"image/jpeg" unless it contains ".html" or ".gif". -/
theorem get_filetype_by_containment (f : List Char) :
    get_filetype f =
        (if ".html".toList <:+: f then "text/html".toList
         else if ".gif".toList <:+: f then "image/gif".toList
         else if ".jpg".toList <:+: f then "image/jpeg".toList
         else "text/plain".toList) ∧
      (".html".toList <:+ f → get_filetype f = "text/html".toList) ∧
      (".gif".toList <:+ f → ¬ ".html".toList <:+: f →
        get_filetype f = "image/gif".toList) ∧
      (".jpg".toList <:+ f → ¬ ".html".toList <:+: f → ¬ ".gif".toList <:+: f →
        get_filetype f = "image/jpeg".toList) := by
  have key : get_filetype f =
      (if ".html".toList <:+: f then "text/html".toList
       else if ".gif".toList <:+: f then "image/gif".toList
       else if ".jpg".toList <:+: f then "image/jpeg".toList
       else "text/plain".toList) := by
    unfold get_filetype
    simp only [strstr_isSome_iff]
  refine ⟨key, ?_, ?_, ?_⟩
  · intro h
    rw [key, if_pos h.isInfix]
  · intro h hn
    rw [key, if_neg hn, if_pos h.isInfix]
  · intro h hn1 hn2
    rw [key, if_neg hn1, if_neg hn2, if_pos h.isInfix]

/-- C4 (amended) at "index.html", "logo.gif", "photo.jpg", "notes.txt" and
"a.html.gif". -/
theorem get_filetype_by_containment_witness :
    get_filetype "index.html".toList = "text/html".toList ∧
    get_filetype "logo.gif".toList = "image/gif".toList ∧
    get_filetype "photo.jpg".toList = "image/jpeg".toList ∧
    get_filetype "notes.txt".toList = "text/plain".toList ∧
    get_filetype "a.html.gif".toList = "text/html".toList :=
  ⟨(get_filetype_by_containment "index.html".toList).2.1 (by decide),
   (get_filetype_by_containment "logo.gif".toList).2.2.1 (by decide) (by decide),
   (get_filetype_by_containment "photo.jpg".toList).2.2.2 (by decide) (by decide) (by decide),
   by decide, by decide⟩

/-! ## Reading a line -/

/-- One iteration of the loop of `readBytes` on a delivered byte that is not a
newline: the byte is stored in `temp[i]` and the loop goes on. -/
theorem readBytes_loop_byte (n i : Nat) (temp : Int → Char) (c : Char)
    (sock : List ReadResult) (hc : c ≠ '\n') :
    readBytes.loop (n + 1) i temp (ReadResult.byte c :: sock) =
      readBytes.loop n (i + 1) (Function.update temp (i : Int) c) sock := by
  simp [readBytes.loop, read, hc]

/-- The loop of `readBytes` on a run of delivered bytes without a newline: they
are stored in `temp[i..]`, the other cells keep their contents. -/
theorem readBytes_loop_bytes (pre : List Char) (hnl : '\n' ∉ pre) :
    ∀ (n i : Nat) (temp : Int → Char) (sock : List ReadResult),
      ∃ temp' : Int → Char,
        (∀ j : Nat, ∀ h : j < pre.length, temp' ((i + j : Nat) : Int) = pre[j]) ∧
        (∀ j : Nat, j < i → temp' (j : Int) = temp (j : Int)) ∧
        readBytes.loop (n + pre.length) i temp (bytes pre ++ sock) =
          readBytes.loop n (i + pre.length) temp' sock := by
  induction pre with
  | nil =>
    intro n i temp sock
    exact ⟨temp, fun j h => absurd h (Nat.not_lt_zero j), fun _ _ => rfl, rfl⟩
  | cons c pre ih =>
    intro n i temp sock
    have hc : c ≠ '\n' := fun e => hnl (by simp [e])
    have hpre : '\n' ∉ pre := fun h => hnl (List.mem_cons_of_mem _ h)
    obtain ⟨temp', h1, h2, h3⟩ := ih hpre n (i + 1) (Function.update temp (i : Int) c) sock
    refine ⟨temp', ?_, ?_, ?_⟩
    · intro j hj
      cases j with
      | zero =>
        have := h2 i (Nat.lt_succ_self i)
        simpa using this
      | succ j =>
        have hj2 : j < pre.length := by simpa using hj
        have := h1 j hj2
        have e : i + (j + 1) = i + 1 + j := by omega
        simpa [e] using this
    · intro j hj
      have := h2 j (Nat.lt_succ_of_lt hj)
      rw [this]
      have hne : (j : Int) ≠ (i : Int) := by omega
      simp [Function.update, hne]
    · have e1 : n + (c :: pre).length = (n + pre.length) + 1 := by simp; omega
      have e2 : i + (c :: pre).length = i + 1 + pre.length := by simp; omega
      rw [e1, e2, ← h3]
      exact readBytes_loop_byte _ _ _ _ _ hc

/-- C5: on a stream with no read error whose first newline is at index k, with
1 <= k < len - 1, whose bytes 0..k hold no NUL and which does not begin with
CR LF, `readBytes` returns 0, leaves in `block` exactly the bytes 0..k (the line
with its newline, then the terminator) and consumes exactly those k+1 bytes:
the socket still holds everything after the newline. Here `pre` is the line
before its newline, `k = pre.length`, and `rest` is what follows the newline. -/
theorem readBytes_line (len : Nat) (stack : Int → Char) (pre : List Char)
    (rest : List ReadResult)
    (hk1 : 1 ≤ pre.length) (hk2 : pre.length < len - 1)
    (hnl : '\n' ∉ pre) (hnul : NUL ∉ pre)
    (hcrlf : ¬ "\r\n".toList <+: pre ++ ['\n']) :
    (readBytes (bytes (pre ++ ['\n']) ++ rest) len stack).ret = 0 ∧
    (readBytes (bytes (pre ++ ['\n']) ++ rest) len stack).block = some (pre ++ ['\n']) ∧
    (readBytes (bytes (pre ++ ['\n']) ++ rest) len stack).sock = rest := by
  obtain ⟨n, rfl⟩ : ∃ n, len = (n + 1) + pre.length := ⟨len - 1 - pre.length, by omega⟩
  obtain ⟨temp', h1, -, h3⟩ :=
    readBytes_loop_bytes pre hnl (n + 1) 0 stack (ReadResult.byte '\n' :: rest)
  simp only [Nat.zero_add] at h1 h3
  have hsock : bytes (pre ++ ['\n']) ++ rest = bytes pre ++ (ReadResult.byte '\n' :: rest) := by
    simp [bytes]
  have hcheck : temp' ((pre.length : Int) - 1) = '\r' → ¬ pre.length = 1 := by
    intro hr hlen1
    obtain ⟨c, rfl⟩ := List.length_eq_one.mp hlen1
    have hc := h1 0 (by simp)
    simp at hc hr
    rw [hc] at hr
    apply hcrlf
    rw [hr]
    exact List.prefix_refl _
  have hrun : readBytes (bytes (pre ++ ['\n']) ++ rest) (n + 1 + pre.length) stack =
      { ret := 0,
        block := some (copyOut (Function.update temp' (pre.length : Int) '\n') pre.length),
        sock := rest,
        stack := Function.update temp' (pre.length : Int) '\n' } := by
    unfold readBytes
    rw [hsock, h3]
    simp only [readBytes.loop, read]
    simpa using hcheck
  have hcells : (List.range (pre.length + 1)).map
      (fun j : Nat => (Function.update temp' (pre.length : Int) '\n') (j : Int)) =
      pre ++ ['\n'] := by
    apply List.ext_getElem
    · simp
    · intro j hj1 hj2
      rw [List.getElem_map, List.getElem_range]
      by_cases hj : j < pre.length
      · have hne : (j : Int) ≠ (pre.length : Int) := by omega
        rw [Function.update_noteq hne, List.getElem_append_left hj]
        exact h1 j hj
      · have hje : j = pre.length := by
          simp at hj2; omega
        subst hje
        simp
  have hblock : copyOut (Function.update temp' (pre.length : Int) '\n') pre.length =
      pre ++ ['\n'] := by
    unfold copyOut
    rw [hcells, List.takeWhile_eq_self_iff]
    intro c hc
    have : c ≠ NUL := by
      rcases List.mem_append.mp hc with h | h
      · exact fun e => hnul (e ▸ h)
      · have : c = '\n' := by simpa using h
        rw [this]
        decide
    simpa using this
  rw [hrun]
  exact ⟨rfl, by rw [hblock], rfl⟩

/-- C5 at the request line "GET / HTTP/1.0" CR LF followed by a header line,
read into a buffer of 1000 bytes: status 0, the line in `block`, the header
line still on the socket. -/
theorem readBytes_line_witness :
    (readBytes (bytes ("GET / HTTP/1.0\r".toList ++ ['\n']) ++ bytes "Host: a\r\n".toList)
      1000 (fun _ => 'x')).ret = 0 ∧
    (readBytes (bytes ("GET / HTTP/1.0\r".toList ++ ['\n']) ++ bytes "Host: a\r\n".toList)
      1000 (fun _ => 'x')).block = some ("GET / HTTP/1.0\r".toList ++ ['\n']) ∧
    (readBytes (bytes ("GET / HTTP/1.0\r".toList ++ ['\n']) ++ bytes "Host: a\r\n".toList)
      1000 (fun _ => 'x')).sock = bytes "Host: a\r\n".toList :=
  readBytes_line 1000 (fun _ => 'x') "GET / HTTP/1.0\r".toList (bytes "Host: a\r\n".toList)
    (by decide) (by decide) (by decide) (by decide) (by decide)

/-- The scan of the specification finds no failing read on a closed socket. -/
theorem readFailsBeforeLine_nil (n : Nat) : readFailsBeforeLine n [] = false := by
  cases n <;> rfl

/-- The loop of `readBytes` from the third byte on, when no cell it has yet to
fill holds a stale newline: it returns 1 if a read fails before the line is
completed and 0 otherwise. -/
theorem readBytes_loop_status_from_two :
    ∀ (n i : Nat) (temp : Int → Char) (sock : List ReadResult), 2 ≤ i →
      (∀ j : Nat, i ≤ j → temp (j : Int) ≠ '\n') →
      (readBytes.loop n i temp sock).ret = if readFailsBeforeLine n sock then 1 else 0 := by
  intro n
  induction n with
  | zero => intro i temp sock _ _; rfl
  | succ n ih =>
    intro i temp sock hi hst
    have hi0 : ¬ i = 0 := by omega
    have hi1 : ¬ i = 1 := by omega
    have hti : temp (i : Int) ≠ '\n' := hst i (le_refl i)
    have hst2 : ∀ j : Nat, i + 1 ≤ j → temp (j : Int) ≠ '\n' := fun j hj => hst j (by omega)
    cases sock with
    | nil =>
      simp only [readBytes.loop, read, hi0, and_false, if_false, hti]
      rw [ih (i + 1) temp [] (by omega) hst2, readFailsBeforeLine_nil]
      rfl
    | cons r rest =>
      cases r with
      | error => rfl
      | eof =>
        simp only [readBytes.loop, read, hi0, and_false, if_false, hti]
        rw [ih (i + 1) temp rest (by omega) hst2]
        rfl
      | byte c =>
        by_cases hc : c = '\n'
        · subst hc
          simp [readBytes.loop, read, hi1, readFailsBeforeLine]
        · have hst3 : ∀ j : Nat, i + 1 ≤ j →
              (Function.update temp (i : Int) c) (j : Int) ≠ '\n' := by
            intro j hj
            have hne : (j : Int) ≠ (i : Int) := by omega
            rw [Function.update_noteq hne]
            exact hst2 j hj
          rw [readBytes_loop_byte n i temp c rest hc,
            ih (i + 1) (Function.update temp (i : Int) c) rest (by omega) hst3]
          simp [readFailsBeforeLine, hc]

/-- Where the classification does hold: on a socket that does not open with a
zero-byte read followed by further outcomes, with `len >= 2`, and with no stale
newline in the cells `temp[1..]`, the status `readBytes` returns is the one the
specification gives. -/
theorem readBytes_status_no_stale_newline (sock : List ReadResult) (len : Nat)
    (stack : Int → Char) (hlen : 2 ≤ len)
    (hsock : ∀ rest, sock ≠ ReadResult.eof :: rest)
    (hst : ∀ j : Nat, 1 ≤ j → stack (j : Int) ≠ '\n') :
    (readBytes sock len stack).ret = readBytes_status_spec sock len := by
  obtain ⟨n, rfl⟩ : ∃ n, len = n + 2 := ⟨len - 2, by omega⟩
  unfold readBytes readBytes_status_spec
  cases sock with
  | nil => rfl
  | cons r rest =>
    cases r with
    | error => rfl
    | eof => exact absurd rfl (hsock rest)
    | byte c =>
      by_cases hc : c = '\n'
      · subst hc
        simp [readBytes.loop, read, readFailsBeforeLine, firstTwoBytesCRLF]
        cases rest with
        | nil => simp [firstTwoBytesCRLF]
        | cons r2 rest2 => cases r2 <;> simp [firstTwoBytesCRLF]
      · have hst1 : ∀ j : Nat, 1 ≤ j →
            (Function.update stack ((0 : Nat) : Int) c) (j : Int) ≠ '\n' := by
          intro j hj
          have hne : (j : Int) ≠ ((0 : Nat) : Int) := by omega
          rw [Function.update_noteq hne]
          exact hst j hj
        have hst2 : ∀ j : Nat, 2 ≤ j →
            (Function.update stack ((0 : Nat) : Int) c) (j : Int) ≠ '\n' :=
          fun j hj => hst1 j (by omega)
        have h1 := hst1 1 (le_refl 1)
        rw [readBytes_loop_byte (n + 1) 0 stack c rest hc]
        have hspec : readFailsBeforeLine (n + 2) (ReadResult.byte c :: rest) =
            readFailsBeforeLine (n + 1) rest := by
          simp [readFailsBeforeLine, hc]
        rw [hspec]
        cases rest with
        | nil =>
          simp only [readBytes.loop, read, Nat.zero_add, one_ne_zero, and_false, if_false]
          rw [if_neg h1, readBytes_loop_status_from_two n 2 _ [] (le_refl 2) hst2,
            readFailsBeforeLine_nil]
          simp [readFailsBeforeLine, read, firstTwoBytesCRLF, bytes]
        | cons r2 rest2 =>
          cases r2 with
          | error => rfl
          | eof =>
            simp only [readBytes.loop, read, Nat.zero_add, one_ne_zero, and_false, if_false]
            rw [if_neg h1, readBytes_loop_status_from_two n 2 _ rest2 (le_refl 2) hst2]
            simp [readFailsBeforeLine, read, firstTwoBytesCRLF]
          | byte b =>
            by_cases hb : b = '\n'
            · subst hb
              by_cases hcr : c = '\r'
              · subst hcr
                simp [readBytes.loop, read, readFailsBeforeLine, firstTwoBytesCRLF]
              · simp [readBytes.loop, read, readFailsBeforeLine, firstTwoBytesCRLF, hcr]
            · have hst3 : ∀ j : Nat, 2 ≤ j →
                  (Function.update (Function.update stack ((0 : Nat) : Int) c)
                    ((0 + 1 : Nat) : Int) b) (j : Int) ≠ '\n' := by
                intro j hj
                have hne : (j : Int) ≠ ((0 + 1 : Nat) : Int) := by omega
                rw [Function.update_noteq hne]
                exact hst2 j hj
              rw [readBytes_loop_byte n (0 + 1) _ b rest2 hb,
                readBytes_loop_status_from_two n (0 + 1 + 1) _ rest2 (by omega) hst3]
              simp [readFailsBeforeLine, read, firstTwoBytesCRLF, hb]

/-- C6 fails on the code: a socket that delivers the single byte CR and is then
closed is classified as ordinary success (0), no second byte having been read;
`readBytes` returns the "end of headers" status -2 when the cell `temp[1]`,
which it never initialises, holds a newline, for instance one left there by an
earlier call that read the line "a" LF at the same place on the stack. -/
theorem readBytes_stale_newline :
    readBytes_status_spec (bytes "\r".toList) 1000 = 0 ∧
    (readBytes (bytes "\r".toList) 1000 (fun j => if j = 1 then '\n' else NUL)).ret = -2 ∧
    (readBytes (bytes "a\n".toList) 1000 (fun _ => NUL)).ret = 0 ∧
    (readBytes (bytes "\r".toList) 1000
      (readBytes (bytes "a\n".toList) 1000 (fun _ => NUL)).stack).ret = -2 ∧
    (readBytes (bytes "\r".toList) 2 (fun j => if j = 1 then '\n' else NUL)).ret = -2 ∧
    readBytes_status_spec (bytes "\r".toList) 2 = 0 := by
  decide

/-! ## Writing a buffer -/

/-- C8, as stated, fails: right after `setupThreads` no slot is occupied and
`areThreadsMaxedOut` returns 1 (true), and with all five slots counted occupied
it returns 0 (false); so it is not true exactly when the pool is saturated. -/
theorem areThreadsMaxedOut_not_saturation :
    (occupied initialPool = 0 ∧ initialPool.threadCount = 0 ∧
      areThreadsMaxedOut initialPool MAX_THREADS = 1) ∧
    areThreadsMaxedOut { backlog := [], threadCount := 5 } MAX_THREADS = 0 ∧
    ¬ ∀ (p : Pool) (N : Int), (areThreadsMaxedOut p N ≠ 0 ↔ N ≤ p.threadCount) := by
  refine ⟨by decide, by decide, ?_⟩
  intro h
  have h1 := (h initialPool MAX_THREADS).mp (by decide)
  revert h1
  decide

/-- C8, amended: `areThreadsMaxedOut(N)` returns 1 or 0; it returns non-zero
exactly when `threadCount < N` (capacity is free) and zero exactly when
`threadCount >= N` (all N slots are counted occupied). -/
theorem areThreadsMaxedOut_iff_free (p : Pool) (N : Int) :
    (areThreadsMaxedOut p N = 1 ∨ areThreadsMaxedOut p N = 0) ∧
    (areThreadsMaxedOut p N ≠ 0 ↔ p.threadCount < N) ∧
    (areThreadsMaxedOut p N = 0 ↔ N ≤ p.threadCount) := by
  unfold areThreadsMaxedOut
  by_cases h : p.threadCount < N
  · simp [h]
  · simp [h, not_lt.mp h]

/-- The scan of `findFreeThread` stops at the first slot that is available. -/
theorem findFreeThread_scan_some (l : List MY_THREAD) :
    ∀ (k j : Nat), findFreeThread.scan l k = some j →
      ∃ (i : Nat) (t : MY_THREAD), j = k + i ∧ l[i]? = some t ∧ t.available ≠ 0 ∧
        ∀ (m : Nat) (u : MY_THREAD), m < i → l[m]? = some u → u.available = 0 := by
  induction l with
  | nil => intro k j h; simp [findFreeThread.scan] at h
  | cons t rest ih =>
    intro k j h
    unfold findFreeThread.scan at h
    by_cases ht : t.available = 0
    · rw [if_pos ht] at h
      obtain ⟨i, u, e, hu, hav, hlow⟩ := ih (k + 1) j h
      refine ⟨i + 1, u, by omega, by simpa using hu, hav, ?_⟩
      intro m v hm hv
      cases m with
      | zero =>
        simp at hv
        rw [← hv]
        exact ht
      | succ m => exact hlow m v (by omega) (by simpa using hv)
    · rw [if_neg ht] at h
      refine ⟨0, t, by simpa using (Option.some.inj h).symm, by simp, ht, ?_⟩
      intro m u hm
      exact absurd hm (Nat.not_lt_zero m)

/-- The scan of `findFreeThread` finds a slot when one is available. -/
theorem findFreeThread_scan_isSome (l : List MY_THREAD)
    (h : ∃ t ∈ l, t.available ≠ 0) : ∀ k : Nat, ∃ j, findFreeThread.scan l k = some j := by
  induction l with
  | nil =>
    obtain ⟨t, ht, -⟩ := h
    simp at ht
  | cons t rest ih =>
    intro k
    unfold findFreeThread.scan
    by_cases ht : t.available = 0
    · rw [if_pos ht]
      obtain ⟨u, hu, hav⟩ := h
      rcases List.mem_cons.mp hu with rfl | hu
      · exact absurd ht hav
      · exact ih ⟨u, hu, hav⟩ (k + 1)
    · rw [if_neg ht]
      exact ⟨k, rfl⟩

/-- C9: on a slot table in which some slot is available, `findFreeThread`
returns the lowest index whose slot is available, an index within the table;
afterwards that slot is marked occupied and is otherwise as before, every other
slot is unchanged, the table has the same length, and `threadCount` is one
more. -/
theorem findFreeThread_lowest (p : Pool) (max : Nat)
    (h : ∃ t ∈ p.backlog, t.available ≠ 0) :
    ∃ (i : Nat) (q : Pool) (t : MY_THREAD), findFreeThread p max = some (i, q) ∧
      i < p.backlog.length ∧ p.backlog[i]? = some t ∧ t.available ≠ 0 ∧
      (∀ (m : Nat) (u : MY_THREAD), m < i → p.backlog[m]? = some u → u.available = 0) ∧
      q.backlog[i]? = some { t with available := 0 } ∧
      (∀ m : Nat, m ≠ i → q.backlog[m]? = p.backlog[m]?) ∧
      q.backlog.length = p.backlog.length ∧
      q.threadCount = p.threadCount + 1 := by
  obtain ⟨j, hj⟩ := findFreeThread_scan_isSome p.backlog h 0
  obtain ⟨i, t, e, ht, hav, hlow⟩ := findFreeThread_scan_some p.backlog 0 j hj
  have e2 : j = i := by omega
  subst e2
  have hlt : j < p.backlog.length := by
    by_contra hge
    rw [List.getElem?_eq_none (not_lt.mp hge)] at ht
    exact Option.noConfusion ht
  refine ⟨j, _, t, by unfold findFreeThread; rw [hj], hlt, ht, hav, hlow, ?_, ?_, ?_, rfl⟩
  · simp [List.getElem?_modify, ht]
  · intro m hm
    have hne : ¬ j = m := fun e => hm e.symm
    simp only [List.getElem?_modify, hne, if_false]
    cases p.backlog[m]? <;> rfl
  · simp

/-- C9 on the table right after `setupThreads`: slot 0 is taken, the count goes
from 0 to 1. -/
theorem findFreeThread_lowest_witness :
    ∃ (i : Nat) (q : Pool) (t : MY_THREAD), findFreeThread initialPool 5 = some (i, q) ∧
      i < initialPool.backlog.length ∧ initialPool.backlog[i]? = some t ∧ t.available ≠ 0 ∧
      (∀ (m : Nat) (u : MY_THREAD), m < i → initialPool.backlog[m]? = some u →
        u.available = 0) ∧
      q.backlog[i]? = some { t with available := 0 } ∧
      (∀ m : Nat, m ≠ i → q.backlog[m]? = initialPool.backlog[m]?) ∧
      q.backlog.length = initialPool.backlog.length ∧
      q.threadCount = initialPool.threadCount + 1 :=
  findFreeThread_lowest initialPool 5
    ⟨{ available := 1, color := some "RED", thread := 0 }, by decide, by decide⟩

/-- Marking an available slot occupied raises the number of occupied slots by
one. -/
theorem countP_modify_occupy (l : List MY_THREAD) (i : Nat) (t : MY_THREAD)
    (ht : l[i]? = some t) (hav : t.available ≠ 0) :
    (l.modify (fun t => { t with available := 0 }) i).countP (fun t => t.available = 0) =
      l.countP (fun t => t.available = 0) + 1 := by
  obtain ⟨hlt, hget⟩ := List.getElem?_eq_some.mp ht
  rw [List.modify_eq_set_get _ hlt, List.countP_set _ _ _ _ hlt]
  have h1 : l[i] = t := hget
  simp [h1, hav]

/-- Storing a thread handle in a slot does not change which slots are
occupied. -/
theorem countP_modify_thread (tid : Nat) (l : List MY_THREAD) :
    ∀ i : Nat, (l.modify (fun t => { t with thread := tid }) i).countP
        (fun t => t.available = 0) = l.countP (fun t => t.available = 0) := by
  induction l with
  | nil => intro i; cases i <;> rfl
  | cons t rest ih =>
    intro i
    cases i with
    | zero => simp [List.modify, List.countP_cons]
    | succ i =>
      have := ih i
      simp only [List.modify_succ_cons, List.countP_cons, this]

/-- The loop of `waitForThreads` marks the slots `i .. i+n-1` available and
leaves the others alone. -/
theorem waitForThreads_loop_getElem? :
    ∀ (n i : Nat) (l : List MY_THREAD) (j : Nat),
      (waitForThreads.loop n i l)[j]? =
        if i ≤ j ∧ j < i + n then
          (l[j]?).map (fun t => if t.available = 0 then { t with available := 1 } else t)
        else l[j]? := by
  intro n
  induction n with
  | zero =>
    intro i l j
    have : ¬ (i ≤ j ∧ j < i + 0) := by omega
    rw [if_neg this]
    rfl
  | succ n ih =>
    intro i l j
    unfold waitForThreads.loop
    rw [ih, List.getElem?_modify]
    by_cases hij : i = j
    · subst hij
      have h1 : ¬ (i + 1 ≤ i ∧ i < i + 1 + n) := by omega
      have h2 : i ≤ i ∧ i < i + (n + 1) := by omega
      rw [if_neg h1, if_pos h2]
      cases l[i]? <;> simp
    · by_cases hc : i + 1 ≤ j ∧ j < i + 1 + n
      · have h2 : i ≤ j ∧ j < i + (n + 1) := by omega
        rw [if_pos hc, if_pos h2]
        cases l[j]? <;> simp [hij]
      · have h2 : ¬ (i ≤ j ∧ j < i + (n + 1)) := by omega
        rw [if_neg hc, if_neg h2]
        cases l[j]? <;> simp [hij]

/-- The loop of `waitForThreads` keeps the length of the table. -/
theorem waitForThreads_loop_length :
    ∀ (n i : Nat) (l : List MY_THREAD), (waitForThreads.loop n i l).length = l.length := by
  intro n
  induction n with
  | zero => intro i l; rfl
  | succ n ih =>
    intro i l
    unfold waitForThreads.loop
    rw [ih, List.length_modify]

/-- After `waitForThreads` over the whole table no slot is occupied. -/
theorem waitForThreads_occupied (p : Pool) (max : Nat) (hmax : p.backlog.length ≤ max) :
    occupied (waitForThreads p max) = 0 := by
  unfold occupied waitForThreads
  rw [List.countP_eq_zero]
  intro t ht
  obtain ⟨j, hj⟩ := List.mem_iff_getElem?.mp ht
  have hlt : j < p.backlog.length := by
    have h1 := (List.getElem?_eq_some.mp hj).1
    rwa [waitForThreads_loop_length] at h1
  simp only at hj
  rw [waitForThreads_loop_getElem?, if_pos (by omega)] at hj
  obtain ⟨u, -, hu⟩ := Option.map_eq_some'.mp hj
  by_cases h0 : u.available = 0
  · rw [if_pos h0] at hu
    rw [← hu]
    simp
  · rw [if_neg h0] at hu
    rw [← hu]
    simpa using h0

/-- A table with fewer occupied slots than slots has an available slot. -/
theorem exists_available_of_occupied_lt (p : Pool) (h : occupied p < p.backlog.length) :
    ∃ t ∈ p.backlog, t.available ≠ 0 := by
  by_contra hall
  have hall2 : ∀ t ∈ p.backlog, (decide (t.available = 0)) = true := by
    intro t ht
    by_contra hn
    exact hall ⟨t, ht, by simpa using hn⟩
  have := List.countP_eq_length.mpr hall2
  unfold occupied at h
  omega

/-- The invariant of the acceptor loop carries over one iteration, and the
iteration never runs past the table. -/
theorem serverStep_invariant (p : Pool) (tid : Nat)
    (hlen : p.backlog.length = MAX_THREADS) (hocc : (occupied p : Int) = p.threadCount) :
    (areThreadsMaxedOut p MAX_THREADS ≠ 0 → ∃ t ∈ p.backlog, t.available ≠ 0) ∧
    ∃ q, serverStep p tid = some q ∧ q.backlog.length = MAX_THREADS ∧
      (occupied q : Int) = q.threadCount := by
  have hfree : areThreadsMaxedOut p MAX_THREADS ≠ 0 → ∃ t ∈ p.backlog, t.available ≠ 0 := by
    intro hne
    have hlt : p.threadCount < (MAX_THREADS : Int) := by
      by_contra hge
      exact hne (by unfold areThreadsMaxedOut; rw [if_neg hge])
    exact exists_available_of_occupied_lt p (by rw [hlen]; omega)
  refine ⟨hfree, ?_⟩
  unfold serverStep
  by_cases hne : areThreadsMaxedOut p MAX_THREADS ≠ 0
  · rw [if_pos hne]
    obtain ⟨j, hj⟩ := findFreeThread_scan_isSome p.backlog (hfree hne) 0
    obtain ⟨i, t, e, ht, hav, -⟩ := findFreeThread_scan_some p.backlog 0 j hj
    have e2 : j = i := by omega
    subst e2
    have hq : findFreeThread p MAX_THREADS = some (j,
        { backlog := p.backlog.modify (fun t => { t with available := 0 }) j,
          threadCount := p.threadCount + 1 }) := by
      unfold findFreeThread
      rw [hj]
    rw [hq]
    refine ⟨_, rfl, ?_, ?_⟩
    · simp only [List.length_modify]
      exact hlen
    · unfold occupied
      simp only
      rw [countP_modify_thread, countP_modify_occupy p.backlog j t ht hav, ← hocc]
      unfold occupied
      push_cast
      rfl
  · rw [if_neg hne]
    refine ⟨_, rfl, ?_, ?_⟩
    · show (waitForThreads.loop MAX_THREADS 0 p.backlog).length = MAX_THREADS
      rw [waitForThreads_loop_length, hlen]
    · rw [waitForThreads_occupied p MAX_THREADS (le_of_eq hlen)]
      rfl

/-- Every pool state the acceptor loop can reach has `MAX_THREADS` slots of which
exactly `threadCount` are occupied. -/
theorem reachable_invariant (p : Pool) (h : Reachable p) :
    p.backlog.length = MAX_THREADS ∧ (occupied p : Int) = p.threadCount := by
  induction h with
  | init => decide
  | step tid _ hstep ih =>
    obtain ⟨q, hq, hl, ho⟩ := (serverStep_invariant _ tid ih.1 ih.2).2
    rw [hq] at hstep
    cases hstep
    exact ⟨hl, ho⟩

/-- C10: in every state the acceptor loop can reach from `setupThreads` with
N = `MAX_THREADS`, the number of occupied slots equals `threadCount` and is at
most N; whenever `areThreadsMaxedOut` reports free capacity (so that
`findFreeThread` is called) some slot is available; and the next iteration
never runs past the table and leads to a reachable state again. -/
theorem pool_bounded (p : Pool) (h : Reachable p) :
    (occupied p : Int) = p.threadCount ∧
    occupied p ≤ MAX_THREADS ∧
    p.threadCount ≤ MAX_THREADS ∧
    p.backlog.length = MAX_THREADS ∧
    (areThreadsMaxedOut p MAX_THREADS ≠ 0 → ∃ t ∈ p.backlog, t.available ≠ 0) ∧
    (∀ tid : Nat, ∃ q, serverStep p tid = some q ∧ Reachable q) := by
  obtain ⟨hlen, hocc⟩ := reachable_invariant p h
  have hfree := (serverStep_invariant p 0 hlen hocc).1
  have hle : occupied p ≤ MAX_THREADS := by
    rw [← hlen]
    exact List.countP_le_length _
  refine ⟨hocc, hle, ?_, hlen, hfree, ?_⟩
  · rw [← hocc]
    exact_mod_cast hle
  · intro tid
    obtain ⟨q, hq, -, -⟩ := (serverStep_invariant p tid hlen hocc).2
    exact ⟨q, hq, Reachable.step tid h hq⟩

/-- C10 on the pool one accepted connection after `setupThreads`: slot 0 is
occupied by thread 7, the count is 1. -/
theorem pool_bounded_witness :
    (occupied { backlog := [⟨0, some "RED", 7⟩, ⟨1, some "PURPLE", 0⟩, ⟨1, some "ORANGE", 0⟩,
        ⟨1, some "GREEN", 0⟩, ⟨1, none, 0⟩], threadCount := 1 } : Int) = 1 ∧
    occupied { backlog := [⟨0, some "RED", 7⟩, ⟨1, some "PURPLE", 0⟩, ⟨1, some "ORANGE", 0⟩,
        ⟨1, some "GREEN", 0⟩, ⟨1, none, 0⟩], threadCount := 1 } ≤ MAX_THREADS :=
  have hstep : serverStep initialPool 7 =
      some { backlog := [⟨0, some "RED", 7⟩, ⟨1, some "PURPLE", 0⟩, ⟨1, some "ORANGE", 0⟩,
        ⟨1, some "GREEN", 0⟩, ⟨1, none, 0⟩], threadCount := 1 } := by decide
  ⟨(pool_bounded _ (Reachable.step 7 Reachable.init hstep)).1,
   (pool_bounded _ (Reachable.step 7 Reachable.init hstep)).2.1⟩

/-! ## Start-up of the pool -/

/-- C19 fails on the code: `colors` has four entries and `MAX_THREADS` is 5, so
the last iteration of `setupThreads ( backlog, MAX_THREADS )` reads `colors[4]`,
outside the table (slot 4 ends up without an entry of the table, whatever it held
before); the other half holds, all five slots are marked available. -/
theorem setupThreads_reads_past_colors :
    colors.length = 4 ∧ MAX_THREADS = 5 ∧ colors[4]? = none ∧
    (setupThreads { backlog := List.replicate 5 ⟨0, some "WHITE", 0⟩, threadCount := 0 }
        MAX_THREADS).backlog.map MY_THREAD.color =
      [some "RED", some "PURPLE", some "ORANGE", some "GREEN", none] ∧
    initialPool.backlog.map MY_THREAD.color =
      [some "RED", some "PURPLE", some "ORANGE", some "GREEN", none] ∧
    initialPool.backlog.map MY_THREAD.available = [1, 1, 1, 1, 1] := by
  decide

/-! ## The cells `readBytes` touches -/

/-- The traced run of `readBytes` returns what `readBytes.loop` returns. -/
theorem readBytes_traced_fst :
    ∀ (n i : Nat) (temp : Int → Char) (sock : List ReadResult),
      (readBytes.traced n i temp sock).1 = readBytes.loop n i temp sock := by
  intro n
  induction n with
  | zero => intro i temp sock; rfl
  | succ n ih =>
    intro i temp sock
    unfold readBytes.traced readBytes.loop
    cases hr : read sock with
    | mk rb sock2 =>
      cases rb with
      | error => rfl
      | eof =>
        dsimp only
        split_ifs <;> first | rfl | exact ih _ _ _
      | byte c =>
        dsimp only
        split_ifs <;> first | rfl | exact ih _ _ _

/-- C18 fails on the code. When the first byte is a newline, the look-behind
`temp[i-1]` is evaluated with `i = 0`, the cell `temp[-1]`. When no newline comes
within the first `len` bytes the loop ends with `i = len` and the terminator goes
to `block[len+1]`; when the newline is the last of `len` bytes it goes to
`block[len]`. Both lie outside a buffer of `len` bytes. -/
theorem readBytes_out_of_bounds :
    (readBytes.accesses (bytes "\n".toList) 1000 (fun _ => NUL) =
        [Access.temp 0, Access.temp (-1), Access.block 1] ∧
      Access.inBounds 1000 (Access.temp (-1)) = false) ∧
    (readBytes.accesses (bytes "ab".toList) 2 (fun _ => NUL) =
        [Access.temp 0, Access.temp 1, Access.block 3] ∧
      Access.inBounds 2 (Access.block 3) = false) ∧
    (readBytes.accesses (bytes "a\n".toList) 2 (fun _ => NUL) =
        [Access.temp 0, Access.temp 1, Access.temp 0, Access.block 2] ∧
      Access.inBounds 2 (Access.block 2) = false) ∧
    ¬ ∀ (sock : List ReadResult) (len : Nat) (stack : Int → Char), 1 ≤ len →
        ∀ a ∈ readBytes.accesses sock len stack, Access.inBounds len a = true := by
  refine ⟨by decide, by decide, by decide, ?_⟩
  intro h
  have h1 := h (bytes "\n".toList) 1000 (fun _ => NUL) (by decide) (Access.temp (-1))
    (by decide)
  revert h1
  decide

/-! ## Skipping the header lines -/

/-- The loop of `read_request_hdrs` returns 0 after at least one and at most
`n + 1` calls of `readBytes`, and only the last of them can have returned -2. -/
theorem read_request_hdrs_loop_statuses :
    ∀ (n count : Nat) (frames : Nat → Int → Char) (sock : List ReadResult),
      (read_request_hdrs.loop n count frames sock).ret = 0 ∧
      1 ≤ (read_request_hdrs.loop n count frames sock).statuses.length ∧
      (read_request_hdrs.loop n count frames sock).statuses.length ≤ n + 1 ∧
      (-2 : Int) ∉ (read_request_hdrs.loop n count frames sock).statuses.dropLast := by
  intro n
  induction n with
  | zero =>
    intro count frames sock
    simp [read_request_hdrs.loop]
  | succ n ih =>
    intro count frames sock
    unfold read_request_hdrs.loop
    by_cases h : (readBytes sock MAXLINE (frames count)).ret ≠ -2
    · obtain ⟨h1, h2, h3, h4⟩ :=
        ih (count + 1) frames (readBytes sock MAXLINE (frames count)).sock
      rw [if_pos h]
      have key : ∀ (a : Int) (l : List Int), 1 ≤ l.length → a ≠ -2 →
          (-2 : Int) ∉ l.dropLast → (-2 : Int) ∉ (a :: l).dropLast := by
        intro a l hl ha hd
        cases l with
        | nil => simp at hl
        | cons x xs =>
          rw [List.dropLast_cons₂]
          intro hm
          rcases List.mem_cons.mp hm with e | hm
          · exact ha e.symm
          · exact hd hm
      exact ⟨h1, by simp, by simp only [List.length_cons]; omega, key _ _ h2 h h4⟩
    · rw [if_neg h]
      simp

/-- C17 fails on the code: with `MAX_NUM_OF_HEADER_LINES` = 10, eleven header
lines "a" LF followed by a line "b" LF make `read_request_hdrs` read eleven
lines, each call of `readBytes` returning 0; only the line "b" LF is left on the
socket. -/
theorem read_request_hdrs_reads_eleven :
    MAX_NUM_OF_HEADER_LINES = 10 ∧
    (read_request_hdrs (bytes "a\na\na\na\na\na\na\na\na\na\na\nb\n".toList)
      (fun _ _ => NUL)).statuses = [0, 0, 0, 0, 0, 0, 0, 0, 0, 0, 0] ∧
    (read_request_hdrs (bytes "a\na\na\na\na\na\na\na\na\na\na\nb\n".toList)
      (fun _ _ => NUL)).sock = bytes "b\n".toList := by
  decide

/-! ## The acceptor loop on a failure -/

/-- C14, as stated, fails: when the readiness poll on the listening socket fails
in the first pass, `server` returns 1 there and then; the pass that follows (a
shutdown, after which it would have closed the socket and returned 0) is never
reached. The same happens when `accept` returns -1. -/
theorem server_failure_not_skipped :
    server 0 [⟨false, -1, false, 7, 100⟩, ⟨true, 1, true, 8, 101⟩] =
      some { ret := some 1, closed := false, pool := initialPool, handlers := [] } ∧
    server 0 [⟨true, 1, true, 8, 101⟩] =
      some { ret := some 0, closed := true, pool := initialPool, handlers := [] } ∧
    server 0 [⟨false, 1, true, -1, 100⟩, ⟨true, 1, true, 8, 101⟩] =
      some { ret := some 1, closed := false, pool := initialPool, handlers := [] } ∧
    ¬ ∀ (pass : Pass) (rest : List Pass) (p : Pool) (handlers : List Int),
        pass.serverShutdown = false → selectData pass.selectRet pass.isSet ≠ 0 →
        server.loop (pass :: rest) p handlers = server.loop rest p handlers := by
  refine ⟨by decide, by decide, by decide, ?_⟩
  intro h
  have h1 := h ⟨false, -1, false, 7, 100⟩ [⟨true, 1, true, 8, 101⟩] initialPool []
    (by decide) (by decide)
  revert h1
  decide

/-- C14, amended: in the loop of `server`, a failure of the readiness poll on
the listening socket, or a failure of `accept` (which is called when
`areThreadsMaxedOut` reports free capacity), is fatal: `server` returns 1 in
that pass, whatever passes would follow, with the pool as it was, no handler
started and the listening socket not closed. -/
theorem server_failure_returns (pass : Pass) (rest : List Pass) (p : Pool)
    (handlers : List Int) (hrun : pass.serverShutdown = false)
    (hfail : selectData pass.selectRet pass.isSet ≠ 0 ∨
      (areThreadsMaxedOut p MAX_THREADS ≠ 0 ∧ pass.client = -1)) :
    server.loop (pass :: rest) p handlers =
      some { ret := some 1, closed := false, pool := p, handlers := handlers } := by
  unfold server.loop
  rw [hrun]
  by_cases hsel : selectData pass.selectRet pass.isSet ≠ 0
  · simp [hsel]
  · rcases hfail with h | ⟨hfree, hacc⟩
    · exact absurd h hsel
    · simp [hsel, hfree, hacc]

/-- C14 (amended) on a failed poll and on a failed `accept`, each in the first
pass after start-up. -/
theorem server_failure_returns_witness :
    server.loop [⟨false, -1, false, 7, 100⟩, ⟨false, 1, true, 8, 101⟩] initialPool [] =
      some { ret := some 1, closed := false, pool := initialPool, handlers := [] } ∧
    server.loop [⟨false, 1, true, -1, 100⟩, ⟨false, 1, true, 8, 101⟩] initialPool [] =
      some { ret := some 1, closed := false, pool := initialPool, handlers := [] } :=
  ⟨server_failure_returns ⟨false, -1, false, 7, 100⟩ [⟨false, 1, true, 8, 101⟩] initialPool []
      rfl (Or.inl (by decide)),
   server_failure_returns ⟨false, 1, true, -1, 100⟩ [⟨false, 1, true, 8, 101⟩] initialPool []
      rfl (Or.inr ⟨by decide, rfl⟩)⟩

/-! ## The response headers -/

/-- The conversion to `int` keeps a size below 2^31. -/
theorem toInt_of_lt (n : Nat) (hn : n < 2147483648) : toInt (n : Int) = (n : Int) := by
  unfold toInt
  omega

/-- A size of 2^31 bytes reaches `serve_static` as the `int` -2147483648: even
with a `sprintf` that formats in place the header then carries
"Content-length: -2147483648", and the body call is asked for a negative count,
so that no byte of the file is sent. -/
theorem serve_static_size_wraps :
    toInt 2147483648 = -2147483648 ∧
    Nat.toDigits 10 2147483648 = "2147483648".toList ∧
    serve_static id "big".toList (toInt 2147483648) (some (List.replicate 2147483648 'a')) =
      [Call.sendBytes 105
        ("HTTP/1.0 200 OK\r\nServer: Gabe Harms Web Server\r\n".toList ++
          "Content-length: -2147483648\r\nContent-type: text/plain\r\n\r\n".toList),
       Call.sendBytes (-2147483648) []] := by
  decide

/-- Where the response is as intended: with a `sprintf` that formats in place
(`overlap` the identity), a file size `n` below 2^31 and a mapping that holds
the `n` bytes of the file, the first `sendBytes` call of `serve_static` is
handed exactly the status line, the `Server` line, "Content-length: " with the
decimal rendering of `n`, "Content-type: " with `get_filetype (filename)`, each
ended by CR LF, and an empty line; the second is handed the `n` bytes of the
file. -/
theorem serve_static_header (filename file : List Char) (n : Nat)
    (hn : n < 2147483648) (hfile : file.length = n) :
    serve_static id filename (toInt (n : Int)) (some file) =
      [Call.sendBytes
        (("HTTP/1.0 200 OK\r\nServer: Gabe Harms Web Server\r\nContent-length: ".toList ++
          Nat.toDigits 10 n ++ "\r\nContent-type: ".toList ++ get_filetype filename ++
          "\r\n\r\n".toList).length : Nat)
        ("HTTP/1.0 200 OK\r\nServer: Gabe Harms Web Server\r\nContent-length: ".toList ++
          Nat.toDigits 10 n ++ "\r\nContent-type: ".toList ++ get_filetype filename ++
          "\r\n\r\n".toList),
       Call.sendBytes (n : Int) file] ∧
    bytesSent (serve_static id filename (toInt (n : Int)) (some file)) =
      "HTTP/1.0 200 OK\r\nServer: Gabe Harms Web Server\r\nContent-length: ".toList ++
        Nat.toDigits 10 n ++ "\r\nContent-type: ".toList ++ get_filetype filename ++
        "\r\n\r\n".toList ++ file := by
  have hfmt : fmt_d (n : Int) = Nat.toDigits 10 n := by
    unfold fmt_d
    have : ¬ ((n : Int) < 0) := by omega
    rw [if_neg this, Int.toNat_ofNat]
  have hcalls : serve_static id filename (toInt (n : Int)) (some file) =
      [Call.sendBytes
        (("HTTP/1.0 200 OK\r\nServer: Gabe Harms Web Server\r\nContent-length: ".toList ++
          Nat.toDigits 10 n ++ "\r\nContent-type: ".toList ++ get_filetype filename ++
          "\r\n\r\n".toList).length : Nat)
        ("HTTP/1.0 200 OK\r\nServer: Gabe Harms Web Server\r\nContent-length: ".toList ++
          Nat.toDigits 10 n ++ "\r\nContent-type: ".toList ++ get_filetype filename ++
          "\r\n\r\n".toList),
       Call.sendBytes (n : Int) file] := by
    unfold serve_static
    rw [toInt_of_lt n hn, hfmt]
    simp only [id, Int.toNat_ofNat]
    rw [← hfile, List.take_length]
    simp [List.append_assoc]
  refine ⟨hcalls, ?_⟩
  rw [hcalls]
  simp only [bytesSent, Int.toNat_ofNat, List.take_length, List.append_nil]
  rw [← hfile, List.take_length]

/-- The intended response on "index.html" with the twelve bytes "hello world"
LF. -/
theorem serve_static_header_witness :
    bytesSent (serve_static id "index.html".toList (toInt ((12 : Nat) : Int))
        (some "hello world\n".toList)) =
      "HTTP/1.0 200 OK\r\nServer: Gabe Harms Web Server\r\nContent-length: ".toList ++
        Nat.toDigits 10 12 ++ "\r\nContent-type: ".toList ++
        get_filetype "index.html".toList ++ "\r\n\r\n".toList ++ "hello world\n".toList ∧
    Nat.toDigits 10 12 = "12".toList ∧
    get_filetype "index.html".toList = "text/html".toList :=
  ⟨(serve_static_header "index.html".toList "hello world\n".toList 12 (by decide) rfl).2,
   by decide, by decide⟩

/-- C15 fails on the code: the header is built by three calls
`sprintf (buf, "%s...", buf, ...)` whose destination is also their `%s`
argument, which C leaves undefined. With a library that empties the destination
before it formats, each call loses what `buf` held: for "index.html" of 12 bytes
the first `sendBytes` call is handed only the 27 bytes
"Content-type: text/html" CR LF CR LF, without the status line, the `Server` line
and the `Content-length` line. Only with a library that formats in place is the
header the one intended. And when `open` or `mmap` fails, which the code does
not check, no byte of the body can be sent although 12 are announced. -/
theorem serve_static_header_lost :
    serve_static (fun _ => []) "index.html".toList (toInt 12) (some "hello world\n".toList) =
      [Call.sendBytes 27 "Content-type: text/html\r\n\r\n".toList,
       Call.sendBytes 12 "hello world\n".toList] ∧
    bytesSent (serve_static (fun _ => []) "index.html".toList (toInt 12)
        (some "hello world\n".toList)) ≠
      "HTTP/1.0 200 OK\r\nServer: Gabe Harms Web Server\r\n".toList ++
        "Content-length: 12\r\nContent-type: text/html\r\n\r\nhello world\n".toList ∧
    bytesSent (serve_static id "index.html".toList (toInt 12)
        (some "hello world\n".toList)) =
      "HTTP/1.0 200 OK\r\nServer: Gabe Harms Web Server\r\n".toList ++
        "Content-length: 12\r\nContent-type: text/html\r\n\r\nhello world\n".toList ∧
    bytesSent (serve_static id "index.html".toList (toInt 12) none) =
      "HTTP/1.0 200 OK\r\nServer: Gabe Harms Web Server\r\n".toList ++
        "Content-length: 12\r\nContent-type: text/html\r\n\r\n".toList := by
  decide

/-- C16 fails on the code: whatever the filename and the arguments, the bytes
`serve_dynamic` asks to have sent are the status line with its CR LF followed by
"Server: Gabe Harms Web Server" with nothing after it; the `Server` line is not
ended by CR LF (in `serve_static` it is). -/
theorem serve_dynamic_server_line_open (filename cgiargs : List Char) :
    serve_dynamic filename cgiargs =
      [Call.sendBytes 17 "HTTP/1.0 200 OK\r\n".toList,
       Call.sendBytes 29 "Server: Gabe Harms Web Server".toList, Call.fork, Call.wait] ∧
    bytesSent (serve_dynamic filename cgiargs) =
      "HTTP/1.0 200 OK\r\nServer: Gabe Harms Web Server".toList ∧
    ¬ "\r\n".toList <:+ bytesSent (serve_dynamic filename cgiargs) := by
  have h : serve_dynamic filename cgiargs =
      [Call.sendBytes 17 "HTTP/1.0 200 OK\r\n".toList,
       Call.sendBytes 29 "Server: Gabe Harms Web Server".toList, Call.fork, Call.wait] := by
    unfold serve_dynamic
    decide
  rw [h]
  exact ⟨rfl, by decide, by decide⟩

/-! ## Comparing without regard to case -/

/-- A character between 'A' and 'Z' is one of the 26 capital letters. -/
theorem upper_cases (c : Char) (h : 'A' ≤ c ∧ c ≤ 'Z') :
    c ∈ "ABCDEFGHIJKLMNOPQRSTUVWXYZ".toList := by
  have h1 : 65 ≤ c.toNat := by
    have := h.1
    rw [Char.le_def] at this
    exact this
  have h2 : c.toNat ≤ 90 := by
    have := h.2
    rw [Char.le_def] at this
    exact this
  rw [← Char.ofNat_toNat c]
  generalize c.toNat = n at h1 h2
  interval_cases n <;> decide

/-- Two characters with the same code are the same. -/
theorem char_toNat_inj (a b : Char) (h : a.toNat = b.toNat) : a = b := by
  rw [← Char.ofNat_toNat a, ← Char.ofNat_toNat b, h]

/-- Putting a byte in lower case never yields the terminator. -/
theorem tolower_toNat_ne_zero (c : Char) (hc : c ≠ NUL) : (tolower c).toNat ≠ 0 := by
  intro h0
  have hN : tolower c = NUL := char_toNat_inj _ _ (by rw [h0]; rfl)
  unfold tolower at hN
  by_cases hu : 'A' ≤ c ∧ c ≤ 'Z'
  · rw [if_pos hu] at hN
    have hall : ∀ d ∈ "ABCDEFGHIJKLMNOPQRSTUVWXYZ".toList,
        Char.ofNat (d.toNat + 32) ≠ NUL := by decide
    exact hall c (upper_cases c hu) hN
  · rw [if_neg hu] at hN
    exact hc hN

/-- On strings, `strcasecmp` returns 0 exactly when the two agree once put in
lower case. -/
theorem strcasecmp_eq_zero_iff (a : List Char) :
    ∀ b : List Char, NUL ∉ a → NUL ∉ b →
      (strcasecmp a b = 0 ↔ a.map tolower = b.map tolower) := by
  induction a with
  | nil =>
    intro b _ hb
    cases b with
    | nil => simp [strcasecmp]
    | cons y t =>
      have hy : y ≠ NUL := fun e => hb (by simp [e])
      have := tolower_toNat_ne_zero y hy
      simp only [strcasecmp, List.map_nil, List.map_cons]
      constructor
      · intro h; omega
      · intro h; exact absurd h (by simp)
  | cons x s ih =>
    intro b ha hb
    have hx : x ≠ NUL := fun e => ha (by simp [e])
    have hs : NUL ∉ s := fun h => ha (List.mem_cons_of_mem _ h)
    cases b with
    | nil =>
      have := tolower_toNat_ne_zero x hx
      simp only [strcasecmp, List.map_nil, List.map_cons]
      constructor
      · intro h; omega
      · intro h; exact absurd h (by simp)
    | cons y t =>
      have ht : NUL ∉ t := fun h => hb (List.mem_cons_of_mem _ h)
      unfold strcasecmp
      by_cases hxy : tolower x = tolower y
      · rw [if_pos hxy, ih t hs ht]
        simp [hxy]
      · rw [if_neg hxy]
        constructor
        · intro h
          exact absurd (char_toNat_inj _ _ (by omega)) hxy
        · intro h
          simp only [List.map_cons, List.cons.injEq] at h
          exact absurd h.1 hxy

/-- The first string `sscanf` stores is the first word of the line. -/
theorem sscanf_method (buf method uri version m rest : List Char)
    (h : scan_s buf = some (m, rest)) :
    (sscanf_s_s_s buf method uri version).1 = m := by
  unfold sscanf_s_s_s
  rw [h]
  dsimp only
  cases scan_s rest with
  | none => rfl
  | some p1 =>
    obtain ⟨u, r2⟩ := p1
    dsimp only
    cases scan_s r2 with
    | none => rfl
    | some p2 => rfl

/-! ## The connection handler -/

/-- C12, as stated, fails: the method "get" is a string other than "GET", yet
the request line "get /a.html HTTP/1.0" is served: `serve_static` is called and
the response is written. -/
theorem processClient_accepts_lowercase_get :
    scan_s (requestLine (readyClient (bytes "get /a.html HTTP/1.0\r\n".toList)
        (fun _ => some ⟨0o100644, 3⟩) (fun _ => "hi\n".toList))) =
      some ("get".toList, " /a.html HTTP/1.0\r\n".toList) ∧
    "get".toList ≠ "GET".toList ∧
    (processClient (readyClient (bytes "get /a.html HTTP/1.0\r\n".toList)
        (fun _ => some ⟨0o100644, 3⟩) (fun _ => "hi\n".toList))).map
          (fun r => r.calls.map Call.isServeStatic) =
      some [true, false, false, false] ∧
    (processClient (readyClient (bytes "get /a.html HTTP/1.0\r\n".toList)
        (fun _ => some ⟨0o100644, 3⟩) (fun _ => "hi\n".toList))).map
          (fun r => bytesSent r.calls) =
      some ("HTTP/1.0 200 OK\r\nServer: Gabe Harms Web Server\r\n".toList ++
        "Content-length: 3\r\nContent-type: text/html\r\n\r\nhi\n".toList) ∧
    ¬ ∀ (e : ClientEnv) (m rest : List Char),
        scan_s (requestLine e) = some (m, rest) → m ≠ "GET".toList →
        ∃ r, processClient e = some r ∧
          r.calls.all (fun c => !c.isReadHdrs && !c.isServeStatic && !c.isServeDynamic &&
            !c.isSendBytes) = true := by
  refine ⟨by decide, by decide, by decide, by decide, ?_⟩
  intro h
  obtain ⟨r, hr, hall⟩ := h (readyClient (bytes "get /a.html HTTP/1.0\r\n".toList)
    (fun _ => some ⟨0o100644, 3⟩) (fun _ => "hi\n".toList)) "get".toList
    " /a.html HTTP/1.0\r\n".toList (by decide) (by decide)
  have hr2 : processClient (readyClient (bytes "get /a.html HTTP/1.0\r\n".toList)
      (fun _ => some ⟨0o100644, 3⟩) (fun _ => "hi\n".toList)) =
      some { ret := 0,
             calls := Call.serve_static "../a.html".toList 3 ::
               serve_static id "../a.html".toList 3 (some "hi\n".toList) ++
                 [Call.close] } := by
    decide
  rw [hr2] at hr
  cases hr
  revert hall
  decide

/-- C12, amended: only GET, in any mix of upper and lower case, is accepted. For
every request line whose method token differs from "GET" even when both are put
in lower case, `processClient` ends with `ret` = 1 having made no call on the
connection: it reads no header lines, invokes neither content server and
writes no bytes. -/
theorem processClient_rejects_method (e : ClientEnv) (m rest : List Char)
    (hline : scan_s (requestLine e) = some (m, rest)) (hnul : NUL ∉ m)
    (hm : m.map tolower ≠ "get".toList) :
    processClient e = some { ret := 1, calls := [] } := by
  have hcmp : strcasecmp m "GET".toList ≠ 0 := by
    intro h0
    exact hm ((strcasecmp_eq_zero_iff m "GET".toList hnul (by decide)).mp h0)
  have hmeth : (requestFields e).1 = m := sscanf_method _ _ _ _ m rest hline
  unfold processClient
  by_cases hsel : selectData e.selectRet e.isSet ≠ 0
  · rw [if_pos hsel]
  · rw [if_neg hsel]
    by_cases hrd : (readBytes e.sock MAXLINE e.stack).ret = -1
    · rw [if_pos hrd]
    · rw [if_neg hrd]
      rcases hf : requestFields e with ⟨method, uri, version⟩
      rw [hf] at hmeth
      dsimp only at hmeth ⊢
      rw [hmeth, if_pos hcmp]

/-- C12 (amended) on the request line "POST / HTTP/1.0". -/
theorem processClient_rejects_method_witness :
    processClient (readyClient (bytes "POST / HTTP/1.0\r\n".toList)
        (fun _ => some ⟨0o100644, 3⟩) (fun _ => "hi\n".toList)) =
      some { ret := 1, calls := [] } :=
  processClient_rejects_method _ "POST".toList " / HTTP/1.0\r\n".toList
    (by decide) (by decide) (by decide)

/-- The classification `parse_uri` returns: 1 (static) for a target without
"cgi-bin", 0 (dynamic) for one that contains it. -/
theorem parse_uri_ret (uri : List Char) (r : ParseResult) (h : parse_uri uri = some r) :
    (r.ret = 1 ∧ ¬ "cgi-bin".toList <:+: uri) ∨ (r.ret = 0 ∧ "cgi-bin".toList <:+: uri) := by
  unfold parse_uri at h
  cases hs : strstr uri "cgi-bin".toList with
  | none =>
    have hcgi := (strstr_eq_none_iff _ _).mp hs
    rw [hs] at h
    dsimp only at h
    cases hl : uri.getLast? with
    | none => rw [hl] at h; exact Option.noConfusion h
    | some last =>
      rw [hl] at h
      dsimp only at h
      cases h
      exact Or.inl ⟨rfl, hcgi⟩
  | some t =>
    have hcgi : "cgi-bin".toList <:+: uri :=
      (strstr_isSome_iff _ _).mp (by rw [hs]; rfl)
    rw [hs] at h
    dsimp only at h
    cases hi : index uri '?' with
    | none =>
      rw [hi] at h
      dsimp only at h
      cases h
      exact Or.inr ⟨rfl, hcgi⟩
    | some q =>
      rw [hi] at h
      dsimp only at h
      cases h
      exact Or.inr ⟨rfl, hcgi⟩

/-- C13: for every accepted GET request (the poll succeeds, the line read is not
"no data", the method passes), `processClient` invokes `serve_static` exactly
when the target is static, `stat` succeeds on the resolved filename and the file
is a regular file with owner-read permission; it invokes `serve_dynamic` exactly
when the target is dynamic, `stat` succeeds and the file is a regular file with
owner-execute permission; and when it invokes neither it makes no `sendBytes`
call (no byte is written) and ends with `ret` = 1. -/
theorem processClient_serves (e : ClientEnv) (method uri version : List Char)
    (r : ParseResult)
    (hsel : selectData e.selectRet e.isSet = 0)
    (hread : (readBytes e.sock MAXLINE e.stack).ret ≠ -1)
    (hreq : requestFields e = (method, uri, version))
    (hget : strcasecmp method "GET".toList = 0)
    (huri : parse_uri uri = some r) :
    ∃ c, processClient e = some c ∧
      (c.calls.any Call.isServeStatic = true ↔
        (r.ret = 1 ∧ ¬ "cgi-bin".toList <:+: uri) ∧
          ∃ st, e.stat r.filename = some st ∧ S_ISREG st.st_mode = true ∧
            S_IRUSR &&& st.st_mode ≠ 0) ∧
      (c.calls.any Call.isServeDynamic = true ↔
        (r.ret = 0 ∧ "cgi-bin".toList <:+: uri) ∧
          ∃ st, e.stat r.filename = some st ∧ S_ISREG st.st_mode = true ∧
            S_IXUSR &&& st.st_mode ≠ 0) ∧
      (c.calls.any Call.isServeStatic = false → c.calls.any Call.isServeDynamic = false →
        c.calls.any Call.isSendBytes = false ∧ c.ret = 1) := by
  have hret := parse_uri_ret uri r huri
  have hsel2 : ¬ selectData e.selectRet e.isSet ≠ 0 := fun h => h hsel
  have hget2 : ¬ strcasecmp method "GET".toList ≠ 0 := fun h => h hget
  unfold processClient
  rw [if_neg hsel2, if_neg hread, hreq]
  dsimp only
  rw [if_neg hget2, huri]
  dsimp only
  generalize hh : (if strcmp version "HTTP/1.1".toList = 0 then
      [Call.read_request_hdrs
        (read_request_hdrs (readBytes e.sock MAXLINE e.stack).sock e.frames).statuses.length]
    else []) = hdrs
  have hd1 : hdrs.any Call.isServeStatic = false := by
    subst hh; split <;> rfl
  have hd2 : hdrs.any Call.isServeDynamic = false := by
    subst hh; split <;> rfl
  have hd3 : hdrs.any Call.isSendBytes = false := by
    subst hh; split <;> rfl
  cases hst : e.stat r.filename with
  | none =>
    refine ⟨_, rfl, ?_, ?_, ?_⟩
    · simp [hd1]
    · simp [hd2]
    · intro _ _
      exact ⟨hd3, rfl⟩
  | some sbuf =>
    dsimp only
    by_cases hr : r.ret ≠ 0
    · have hr1 : r.ret = 1 ∧ ¬ "cgi-bin".toList <:+: uri := by
        rcases hret with h | h
        · exact h
        · exact absurd h.1 hr
      have hr0 : ¬ (r.ret = 0 ∧ "cgi-bin".toList <:+: uri) := fun h => hr h.1
      rw [if_pos hr]
      by_cases hc : (!(S_ISREG sbuf.st_mode) || decide ((S_IRUSR &&& sbuf.st_mode) = 0)) = true
      · rw [if_pos hc]
        refine ⟨_, rfl, ?_, ?_, ?_⟩
        · rw [hd1]
          simp only [Bool.false_eq_true, false_iff, not_and, not_exists]
          intro _ st hs hreg hperm
          cases hs
          simp [hreg, hperm] at hc
        · rw [hd2]
          simp only [Bool.false_eq_true, false_iff]
          exact fun h => hr0 h.1
        · intro _ _
          exact ⟨hd3, rfl⟩
      · rw [if_neg hc]
        refine ⟨_, rfl, ?_, ?_, ?_⟩
        · simp only [List.any_append, List.any_cons, Call.isServeStatic, Bool.true_or,
            Bool.or_true, true_iff]
          refine ⟨hr1, sbuf, rfl, ?_, ?_⟩
          · simpa using (fun h => hc (by simp [h]) : ¬ S_ISREG sbuf.st_mode = false)
          · intro h0
            exact hc (by simp [h0])
        · simp only [List.any_append, List.any_cons, Call.isServeDynamic, hd2, serve_static,
            List.any_nil, Bool.or_false, Bool.false_or, Bool.false_eq_true, false_iff]
          exact fun h => hr0 h.1
        · intro h
          simp [List.any_append, Call.isServeStatic] at h
    · have hr0 : r.ret = 0 ∧ "cgi-bin".toList <:+: uri := by
        rcases hret with h | h
        · exact absurd (not_not.mp hr) (by rw [h.1]; decide)
        · exact h
      have hr1 : ¬ (r.ret = 1 ∧ ¬ "cgi-bin".toList <:+: uri) := fun h => h.2 hr0.2
      rw [if_neg hr]
      by_cases hc : (!(S_ISREG sbuf.st_mode) || decide ((S_IXUSR &&& sbuf.st_mode) = 0)) = true
      · rw [if_pos hc]
        refine ⟨_, rfl, ?_, ?_, ?_⟩
        · rw [hd1]
          simp only [Bool.false_eq_true, false_iff]
          exact fun h => hr1 h.1
        · rw [hd2]
          simp only [Bool.false_eq_true, false_iff, not_and, not_exists]
          intro _ st hs hreg hperm
          cases hs
          simp [hreg, hperm] at hc
        · intro _ _
          exact ⟨hd3, rfl⟩
      · rw [if_neg hc]
        refine ⟨_, rfl, ?_, ?_, ?_⟩
        · simp only [List.any_append, List.any_cons, Call.isServeStatic, hd1, serve_dynamic,
            List.any_nil, Bool.or_false, Bool.false_or, Bool.false_eq_true, false_iff]
          exact fun h => hr1 h.1
        · simp only [List.any_append, List.any_cons, Call.isServeDynamic, Bool.true_or,
            Bool.or_true, true_iff]
          refine ⟨hr0, sbuf, rfl, ?_, ?_⟩
          · simpa using (fun h => hc (by simp [h]) : ¬ S_ISREG sbuf.st_mode = false)
          · intro h0
            exact hc (by simp [h0])
        · intro _ h
          simp [List.any_append, Call.isServeDynamic] at h

/-- C13 on "GET /index.html HTTP/1.0" with a regular file readable by its owner
(static server invoked), and on "GET /missing.html HTTP/1.0" where `stat`
fails (no server invoked, no byte written). -/
theorem processClient_serves_witness :
    (∃ c, processClient (readyClient (bytes "GET /index.html HTTP/1.0\r\n".toList)
        (fun _ => some ⟨0o100644, 3⟩) (fun _ => "hi\n".toList)) = some c ∧
      c.calls.any Call.isServeStatic = true) ∧
    (∃ c, processClient (readyClient (bytes "GET /missing.html HTTP/1.0\r\n".toList)
        (fun _ => none) (fun _ => [])) = some c ∧
      c.calls.any Call.isServeStatic = false ∧ c.calls.any Call.isServeDynamic = false ∧
      c.calls.any Call.isSendBytes = false) := by
  constructor
  · obtain ⟨c, hc, hs, -, -⟩ := processClient_serves
      (readyClient (bytes "GET /index.html HTTP/1.0\r\n".toList)
        (fun _ => some ⟨0o100644, 3⟩) (fun _ => "hi\n".toList))
      "GET".toList "/index.html".toList "HTTP/1.0".toList
      { ret := 1, uri := "/index.html".toList, filename := "../index.html".toList,
        cgiargs := [] }
      (by decide) (by decide) (by decide) (by decide) (by decide)
    exact ⟨c, hc, hs.mpr ⟨⟨rfl, by decide⟩, ⟨0o100644, 3⟩, rfl, by decide, by decide⟩⟩
  · obtain ⟨c, hc, hs, hd, hn⟩ := processClient_serves
      (readyClient (bytes "GET /missing.html HTTP/1.0\r\n".toList)
        (fun _ => none) (fun _ => []))
      "GET".toList "/missing.html".toList "HTTP/1.0".toList
      { ret := 1, uri := "/missing.html".toList, filename := "../missing.html".toList,
        cgiargs := [] }
      (by decide) (by decide) (by decide) (by decide) (by decide)
    have h1 : c.calls.any Call.isServeStatic = false := by
      cases hb : c.calls.any Call.isServeStatic with
      | false => rfl
      | true =>
        obtain ⟨-, st, hst, -⟩ := hs.mp hb
        exact Option.noConfusion hst
    have h2 : c.calls.any Call.isServeDynamic = false := by
      cases hb : c.calls.any Call.isServeDynamic with
      | false => rfl
      | true =>
        obtain ⟨-, st, hst, -⟩ := hd.mp hb
        exact Option.noConfusion hst
    exact ⟨c, hc, h1, h2, (hn h1 h2).1⟩

/-- How often `processClient` closes the socket: once when it ends with `ret` = 0
(a content server has run), not at all when it ends with `ret` = 1. -/
theorem processClient_close_count (e : ClientEnv) (c : ClientResult)
    (h : processClient e = some c) :
    c.calls.count Call.close = if c.ret = 0 then 1 else 0 := by
  unfold processClient at h
  by_cases hsel : selectData e.selectRet e.isSet ≠ 0
  · rw [if_pos hsel] at h
    cases h
    rfl
  · rw [if_neg hsel] at h
    by_cases hrd : (readBytes e.sock MAXLINE e.stack).ret = -1
    · rw [if_pos hrd] at h
      cases h
      rfl
    · rw [if_neg hrd] at h
      rcases hf : requestFields e with ⟨method, uri, version⟩
      rw [hf] at h
      dsimp only at h
      by_cases hcmp : strcasecmp method "GET".toList ≠ 0
      · rw [if_pos hcmp] at h
        cases h
        rfl
      · rw [if_neg hcmp] at h
        generalize hh : (if strcmp version "HTTP/1.1".toList = 0 then
            [Call.read_request_hdrs
              (read_request_hdrs (readBytes e.sock MAXLINE e.stack).sock
                e.frames).statuses.length]
          else []) = hdrs at h
        have hd : hdrs.count Call.close = 0 := by
          subst hh; split <;> rfl
        cases hu : parse_uri uri with
        | none => rw [hu] at h; exact Option.noConfusion h
        | some r =>
          rw [hu] at h
          dsimp only at h
          cases hst : e.stat r.filename with
          | none =>
            rw [hst] at h
            cases h
            exact hd
          | some sbuf =>
            rw [hst] at h
            dsimp only at h
            split_ifs at h <;> cases h
            · exact hd
            · simp [List.count_append, List.count_cons, hd, serve_static]
            · exact hd
            · simp [List.count_append, List.count_cons, hd, serve_dynamic]

/-- C11 fails on the code: `processClient` closes the socket on the path that
serves a response and on no other. After a failed poll, when no data is read,
on a method other than GET ("POST / HTTP/1.0") and on a missing file
("GET /missing.html HTTP/1.0") the handler exits with `ret` = 1 without a
`close` call; on "GET /index.html HTTP/1.0" with a readable regular file it
closes the socket once. -/
theorem processClient_exits_without_close :
    processClient (ClientEnv.mk (-1) false (bytes "GET / HTTP/1.0\r\n".toList)
        (fun _ => NUL) (fun _ _ => NUL) [] [] [] [] (fun _ => some ⟨0o100644, 3⟩)
        (fun _ => some "hi\n".toList) id) = some { ret := 1, calls := [] } ∧
    processClient (readyClient [] (fun _ => some ⟨0o100644, 3⟩) (fun _ => "hi\n".toList)) =
      some { ret := 1, calls := [] } ∧
    processClient (readyClient (bytes "POST / HTTP/1.0\r\n".toList)
        (fun _ => some ⟨0o100644, 3⟩) (fun _ => "hi\n".toList)) =
      some { ret := 1, calls := [] } ∧
    processClient (readyClient (bytes "GET /missing.html HTTP/1.0\r\n".toList)
        (fun _ => none) (fun _ => [])) = some { ret := 1, calls := [] } ∧
    processClient (readyClient (bytes "GET /secret.html HTTP/1.0\r\n".toList)
        (fun _ => some ⟨0o100000, 3⟩) (fun _ => "hi\n".toList)) =
      some { ret := 1, calls := [] } ∧
    (processClient (readyClient (bytes "GET /index.html HTTP/1.0\r\n".toList)
        (fun _ => some ⟨0o100644, 3⟩) (fun _ => "hi\n".toList))).map
          (fun c => (c.ret, c.calls.count Call.close, c.calls.getLast?)) =
      some (0, 1, some Call.close) := by
  decide

end WebServer
